import Mathlib

/-!
Verification development for the physical-design context core of nextpnr
(`src/common/basectx.cc`): the cell/net registries, the alias table, the
region/constraint subsystem, the binding mutation primitives and the
attribute codec (`archInfoToAttributes` / `attributesToArchInfo`).

C++ strings are embedded as `List Char`; the architecture service's
identifiers (bels, wires, pips) are embedded by their external names, so
the name/handle translation of an identically-named design is the
identity.  Fallible operations return `Option` or carry an explicit
crash state.
-/

/-- Characters of a C++ `std::string`. -/
abbrev Str := List Char

/-- Decimal digit character, `'0' + d`. -/
def digitChar (d : Nat) : Char := Char.ofNat (48 + d)

/-- Fuelled accumulator loop of the decimal printer: repeatedly divides by
ten and prepends the digit character, as `std::to_string` does. -/
def natToStrAux : Nat → Nat → Str → Str
  | 0, _, acc => acc
  | Nat.succ fuel, n, acc =>
    if n = 0 then acc else natToStrAux fuel (n / 10) (digitChar (n % 10) :: acc)

/-- Decimal representation of a natural number, as produced by
`std::to_string` on a non-negative value. -/
def natToStr (n : Nat) : Str :=
  if n = 0 then [digitChar 0] else natToStrAux n n []

/-- Digit fold modelling `std::stoi` on a decimal numeral.  `basectx.cc`
only applies it to strength fields that `archInfoToAttributes` printed
with `std::to_string`, which are plain numerals. -/
def strToNat (s : Str) : Nat :=
  s.foldl (fun a c => a * 10 + (c.toNat - 48)) 0

theorem natToStrAux_zero (fuel : Nat) (acc : Str) : natToStrAux fuel 0 acc = acc := by
  cases fuel <;> simp [natToStrAux]

theorem natToStrAux_append (fuel : Nat) :
    ∀ (n : Nat) (acc : Str), natToStrAux fuel n acc = natToStrAux fuel n [] ++ acc := by
  induction fuel with
  | zero => intro n acc; simp [natToStrAux]
  | succ fuel ih =>
    intro n acc
    by_cases hn : n = 0
    · simp [natToStrAux, hn]
    · simp only [natToStrAux, if_neg hn]
      rw [ih (n / 10) (digitChar (n % 10) :: acc), ih (n / 10) [digitChar (n % 10)]]
      simp

theorem natToStrAux_fuel (fuel1 : Nat) :
    ∀ (fuel2 n : Nat), n ≤ fuel1 → n ≤ fuel2 →
      natToStrAux fuel1 n [] = natToStrAux fuel2 n [] := by
  induction fuel1 with
  | zero =>
    intro fuel2 n h1 _
    have : n = 0 := Nat.le_zero.mp h1
    subst this
    rw [natToStrAux_zero, natToStrAux_zero]
  | succ fuel1 ih =>
    intro fuel2 n h1 h2
    by_cases hn : n = 0
    · subst hn; rw [natToStrAux_zero, natToStrAux_zero]
    · obtain ⟨fuel2p, rfl⟩ : ∃ m, fuel2 = m + 1 := by
        cases fuel2 with
        | zero => exact absurd (Nat.le_zero.mp h2) hn
        | succ m => exact ⟨m, rfl⟩
      have hdivlt : n / 10 < n := Nat.div_lt_self (Nat.pos_of_ne_zero hn) (by omega)
      have hd1 : n / 10 ≤ fuel1 := by omega
      have hd2 : n / 10 ≤ fuel2p := by omega
      simp only [natToStrAux, if_neg hn]
      rw [natToStrAux_append fuel1, natToStrAux_append fuel2p, ih fuel2p (n / 10) hd1 hd2]

/-- Big-endian decimal digit string of `n` (empty for zero). -/
def decRep (n : Nat) : Str := natToStrAux n n []

theorem decRep_succ (n : Nat) (hn : n ≠ 0) :
    decRep n = decRep (n / 10) ++ [digitChar (n % 10)] := by
  obtain ⟨m, rfl⟩ : ∃ m, n = m + 1 := by
    cases n with
    | zero => exact absurd rfl hn
    | succ m => exact ⟨m, rfl⟩
  have hdivlt : (m + 1) / 10 < m + 1 := Nat.div_lt_self (Nat.succ_pos m) (by omega)
  unfold decRep
  conv_lhs => rw [natToStrAux]
  rw [if_neg hn, natToStrAux_append m,
    natToStrAux_fuel m ((m + 1) / 10) ((m + 1) / 10) (by omega) (Nat.le_refl _)]

theorem digitChar_toNat : ∀ d, d < 10 → (digitChar d).toNat = 48 + d := by decide

theorem strToNat_append_digit (xs : Str) (c : Char) :
    strToNat (xs ++ [c]) = strToNat xs * 10 + (c.toNat - 48) := by
  simp [strToNat, List.foldl_append]

theorem strToNat_decRep : ∀ n, strToNat (decRep n) = n := by
  intro n
  induction n using Nat.strong_induction_on with
  | _ n ih =>
    by_cases hn : n = 0
    · subst hn; simp [decRep, natToStrAux_zero, strToNat]
    · have hdivlt : n / 10 < n := Nat.div_lt_self (Nat.pos_of_ne_zero hn) (by omega)
      rw [decRep_succ n hn, strToNat_append_digit, ih (n / 10) hdivlt,
        digitChar_toNat (n % 10) (Nat.mod_lt n (by omega))]
      omega

theorem strToNat_natToStr (n : Nat) : strToNat (natToStr n) = n := by
  by_cases hn : n = 0
  · subst hn; simp [natToStr, strToNat, digitChar]
  · rw [natToStr, if_neg hn]
    exact strToNat_decRep n

theorem mem_natToStrAux (fuel : Nat) :
    ∀ (n : Nat) (acc : Str) (c : Char), c ∈ natToStrAux fuel n acc →
      c ∈ acc ∨ ∃ d, d < 10 ∧ c = digitChar d := by
  induction fuel with
  | zero => intro n acc c h; exact Or.inl h
  | succ fuel ih =>
    intro n acc c h
    by_cases hn : n = 0
    · rw [natToStrAux, if_pos hn] at h; exact Or.inl h
    · rw [natToStrAux, if_neg hn] at h
      rcases ih (n / 10) (digitChar (n % 10) :: acc) c h with hmem | hres
      · rcases List.mem_cons.mp hmem with hc | hc
        · exact Or.inr ⟨n % 10, Nat.mod_lt n (by omega), hc⟩
        · exact Or.inl hc
      · exact Or.inr hres

theorem digitChar_ne_semi : ∀ d, d < 10 → digitChar d ≠ ';' := by decide

theorem natToStr_noSemi (n : Nat) : ∀ c ∈ natToStr n, c ≠ ';' := by
  intro c hc
  by_cases hn : n = 0
  · subst hn
    rw [natToStr, if_pos rfl] at hc
    have hc0 : c = digitChar 0 := List.mem_singleton.mp hc
    subst hc0
    exact digitChar_ne_semi 0 (by omega)
  · rw [natToStr, if_neg hn] at hc
    rcases mem_natToStrAux n n [] c hc with hmem | ⟨d, hd, rfl⟩
    · simp at hmem
    · exact digitChar_ne_semi d hd

/-- boost::split on the single separator `';'` (token compression off):
yields the list of fields between separators, one empty field for the
empty string. -/
def splitSemi : Str → List Str
  | [] => [[]]
  | c :: cs =>
    if c = ';' then [] :: splitSemi cs
    else
      match splitSemi cs with
      | [] => [[c]]
      | f :: rest => (c :: f) :: rest

theorem splitSemi_noSemi (a : Str) (h : ∀ c ∈ a, c ≠ ';') : splitSemi a = [a] := by
  induction a with
  | nil => rfl
  | cons c cs ih =>
    have hc : c ≠ ';' := h c (List.mem_cons_self c cs)
    have hcs : splitSemi cs = [cs] := ih (fun x hx => h x (List.mem_cons_of_mem c hx))
    rw [splitSemi, if_neg hc, hcs]

theorem splitSemi_sep (a : Str) (r : Str) (h : ∀ c ∈ a, c ≠ ';') :
    splitSemi (a ++ ';' :: r) = a :: splitSemi r := by
  induction a with
  | nil => simp [splitSemi]
  | cons c cs ih =>
    have hc : c ≠ ';' := h c (List.mem_cons_self c cs)
    have hcs := ih (fun x hx => h x (List.mem_cons_of_mem c hx))
    rw [List.cons_append, splitSemi, if_neg hc, hcs]

/-- Lookup in an association list, the embedding of `dict` find/at. -/
def alistLookup {α : Type} : List (Str × α) → Str → Option α
  | [], _ => none
  | e :: rest, k => if e.1 = k then some e.2 else alistLookup rest k

/-- Insert-or-assign keeping the entry position, the embedding of
`dict` element assignment. -/
def alistInsert {α : Type} : List (Str × α) → Str → α → List (Str × α)
  | [], k, v => [(k, v)]
  | e :: rest, k, v => if e.1 = k then (k, v) :: rest else e :: alistInsert rest k v

/-- Erase by key, the embedding of `dict::erase`. -/
def alistErase {α : Type} (l : List (Str × α)) (k : Str) : List (Str × α) :=
  l.filter (fun e => decide (e.1 ≠ k))

theorem alistLookup_insert_self {α : Type} (l : List (Str × α)) (k : Str) (v : α) :
    alistLookup (alistInsert l k v) k = some v := by
  induction l with
  | nil => simp [alistInsert, alistLookup]
  | cons e rest ih =>
    by_cases he : e.1 = k
    · rw [alistInsert, if_pos he, alistLookup, if_pos rfl]
    · rw [alistInsert, if_neg he, alistLookup, if_neg he, ih]

theorem alistLookup_insert_ne {α : Type} (l : List (Str × α)) (k k2 : Str) (v : α)
    (h : k2 ≠ k) : alistLookup (alistInsert l k v) k2 = alistLookup l k2 := by
  induction l with
  | nil => simp [alistInsert, alistLookup, Ne.symm h]
  | cons e rest ih =>
    by_cases he : e.1 = k
    · subst he
      simp [alistInsert, alistLookup, Ne.symm h]
    · simp only [alistInsert, if_neg he]
      by_cases he2 : e.1 = k2
      · simp [alistLookup, he2]
      · simp only [alistLookup, if_neg he2]
        exact ih

theorem alistLookup_erase_ne {α : Type} (l : List (Str × α)) (k k2 : Str)
    (h : k2 ≠ k) : alistLookup (alistErase l k) k2 = alistLookup l k2 := by
  induction l with
  | nil => rfl
  | cons e rest ih =>
    rw [alistErase, List.filter_cons]
    by_cases he : e.1 = k
    · have hpe : decide (e.1 ≠ k) = false := by simp [he]
      have hne2 : e.1 ≠ k2 := fun hx => h (hx.symm.trans he)
      rw [hpe]
      simp only [Bool.false_eq_true, if_false]
      rw [show alistLookup (e :: rest) k2 = alistLookup rest k2 from by
        simp [alistLookup, hne2]]
      exact ih
    · have hpe : decide (e.1 ≠ k) = true := by simp [he]
      rw [hpe, if_pos rfl]
      by_cases he2 : e.1 = k2
      · rw [alistLookup, alistLookup, if_pos he2, if_pos he2]
      · rw [alistLookup, alistLookup, if_neg he2, if_neg he2]
        exact ih

theorem alistLookup_mapVal {α β : Type} (f : α → β) (l : List (Str × α)) (k : Str) :
    alistLookup (l.map (fun e => (e.1, f e.2))) k = (alistLookup l k).map f := by
  induction l with
  | nil => rfl
  | cons e rest ih =>
    by_cases he : e.1 = k
    · simp [alistLookup, he]
    · simp only [List.map_cons, alistLookup, if_neg he]
      exact ih

/-! ## Data model

The entity records mirror `CellInfo` / `NetInfo` / `Region` /
`HierarchicalCell` as used by `basectx.cc`.  Their full declarations live
in headers outside the provided sources, so the fields are modelled from
the spec's data model (section 3); pointers to other entities are
embedded as name references, per the spec's design note on weak
references. -/

/-- Modelled from the spec: the unconstrained sentinel for the
coordinate constraint fields (INT_MIN in the source type). -/
def UNCONSTR : Int := -(2 ^ 31)

/-- Modelled from the spec: the user-locked level of the totally ordered
`PlaceStrength` enumeration, used as the decode default. -/
def STRENGTH_USER : Nat := 6

/-- Variant scalar attribute value (the `Property` type): an integer or
a string. -/
inductive AttrVal where
  | intVal (n : Int)
  | strVal (s : Str)
deriving DecidableEq

/-- Modelled from the spec: `Property::as_int64`; on a string-valued
property it parses the numeral (only integer-valued properties are read
this way by `basectx.cc` on codec-produced attributes). -/
def AttrVal.as_int64 : AttrVal → Int
  | .intVal n => n
  | .strVal s => Int.ofNat (strToNat s)

/-- Modelled from the spec: `Property::as_string` / the `str` member; on
an integer-valued property the decimal spelling (only string-valued
properties are read this way by `basectx.cc` on codec-produced
attributes). -/
def AttrVal.as_string : AttrVal → Str
  | .intVal n => natToStr n.toNat
  | .strVal s => s

/-- Port record of a Cell (direction and connected net), kept abstract:
only preserved, never inspected, by the operations verified here. -/
structure PortInfo where
  name : Str := []
  dir : Nat := 0
  net : Option Str := none
deriving DecidableEq

/-- One entry of a Net's `wires` map: the optional driving pip and the
binding strength. -/
structure PipMapEntry where
  pip : Option Str := none
  strength : Nat := 0
deriving DecidableEq

/-- Clock constraint delay pairs; delays are embedded as rationals. -/
structure ClockConstraint where
  period : Rat × Rat := (0, 0)
  high : Rat × Rat := (0, 0)
  low : Rat × Rat := (0, 0)
deriving DecidableEq

/-- DelayPair built from a single delay (both bounds equal). -/
def delayPair (d : Rat) : Rat × Rat := (d, d)

/-- Cell record (`CellInfo`): identity, logical ports, physical binding,
constraint fields and the generic attribute map. -/
structure CellInfo where
  name : Str := []
  type : Str := []
  ports : List (Str × PortInfo) := []
  bel : Option Str := none
  belStrength : Nat := 0
  constr_x : Int := UNCONSTR
  constr_y : Int := UNCONSTR
  constr_z : Int := UNCONSTR
  constr_abs_z : Bool := false
  constr_parent : Option Str := none
  constr_children : List Str := []
  region : Option Str := none
  attrs : List (Str × AttrVal) := []
deriving DecidableEq

/-- Net record (`NetInfo`): identity, logical connectivity (driver and
sink ports, kept abstract), the realized routing tree `wires`, the
optional clock constraint and the attribute map. -/
structure NetInfo where
  name : Str := []
  driver : Option (Str × Str) := none
  users : List (Str × Str) := []
  wires : List (Str × PipMapEntry) := []
  clkconstr : Option ClockConstraint := none
  attrs : List (Str × AttrVal) := []
deriving DecidableEq

/-- Region record: name, the three constraint flags and the member bel
set. -/
structure RegionInfo where
  name : Str := []
  constr_bels : Bool := true
  constr_pips : Bool := false
  constr_wires : Bool := false
  bels : List Str := []
deriving DecidableEq

/-- Hierarchy index entry: ordered leaf-cell children and nested
hierarchical children, each a (port-in-parent, entity name) pair whose
second component is the referenced name, as used by
`constrainCellToRegion`. -/
structure HierarchicalCell where
  leaf_cells : List (Str × Str) := []
  hier_cells : List (Str × Str) := []
deriving DecidableEq

/-- The design state owned by `BaseCtx`: cell and net registries, the
net alias table, the region table (entries are `Option` because the
stored `std::unique_ptr<Region>` can be null) and the hierarchy index. -/
structure DesignState where
  cells : List (Str × CellInfo) := []
  nets : List (Str × NetInfo) := []
  net_aliases : List (Str × Str) := []
  region : List (Str × Option RegionInfo) := []
  hierarchy : List (Str × HierarchicalCell) := []
deriving DecidableEq

/-- Result of an operation that can hard-fail (assertion or null
dereference); the crash constructor records the state at the point of
failure. -/
inductive OpResult where
  | ok (st : DesignState)
  | crashed (st : DesignState)
deriving DecidableEq

/-- State carried by an `OpResult`. -/
def OpResult.state : OpResult → DesignState
  | .ok st => st
  | .crashed st => st

/-! Attribute keys used by the codec. -/

def kBEL : Str := "BEL".data
def kNEXTPNR_BEL : Str := "NEXTPNR_BEL".data
def kBEL_STRENGTH : Str := "BEL_STRENGTH".data
def kCONSTR_X : Str := "CONSTR_X".data
def kCONSTR_Y : Str := "CONSTR_Y".data
def kCONSTR_Z : Str := "CONSTR_Z".data
def kCONSTR_ABS_Z : Str := "CONSTR_ABS_Z".data
def kCONSTR_PARENT : Str := "CONSTR_PARENT".data
def kCONSTR_CHILDREN : Str := "CONSTR_CHILDREN".data
def kROUTING : Str := "ROUTING".data

/-! ## Architecture-service primitives (modelled from the spec) -/

/-- Modelled from the spec: the architecture's `bindBel` records the
site binding and its strength on the cell. -/
def bindBel (ci : CellInfo) (b : Str) (strength : Nat) : CellInfo :=
  { ci with bel := some b, belStrength := strength }

/-- Modelled from the spec: `bindWire` binds wire `w` directly to the
net at the given strength (no driving pip). -/
def bindWire (ni : NetInfo) (w : Str) (strength : Nat) : NetInfo :=
  { ni with wires := alistInsert ni.wires w { pip := none, strength := strength } }

/-- Modelled from the spec: `bindPip` binds the driving pip, which
implicitly also claims the pip's destination wire `pipDst p`. -/
def bindPip (pipDst : Str → Str) (ni : NetInfo) (p : Str) (strength : Nat) : NetInfo :=
  { ni with wires := alistInsert ni.wires (pipDst p) { pip := some p, strength := strength } }

/-- Modelled from the spec: the architecture's `unbindWire` removes the
wire's binding from the net holding it; each wire is bound to at most
one net, so removing the key from every net's wires map is that
operation. -/
def unbindWire (st : DesignState) (w : Str) : DesignState :=
  let nets2 := st.nets.map
    (fun e => (e.1, { e.2 with wires := e.2.wires.filter (fun x => decide (x.1 ≠ w)) }))
  { st with nets := nets2 }

/-! ## Attribute codec (`archInfoToAttributes` / `attributesToArchInfo`) -/

/-- Pip field of a wire group: the driving pip's name, or the empty
string when the wire is bound without a pip. -/
def pipField (e : Str × PipMapEntry) : Str :=
  match e.2.pip with
  | some p => p
  | none => []

/-- Three fields a bound wire contributes to `ROUTING`: wire name, pip
name or empty, decimal strength. -/
def wireFields (e : Str × PipMapEntry) : List Str :=
  [e.1, pipField e, natToStr e.2.strength]

/-- Flattened field sequence of a wires map, group after group. -/
def wireFieldsOf : List (Str × PipMapEntry) → List Str
  | [] => []
  | e :: rest => wireFields e ++ wireFieldsOf rest

/-- One wire group of the `ROUTING` string. -/
def groupStr (e : Str × PipMapEntry) : Str :=
  e.1 ++ ';' :: (pipField e ++ ';' :: natToStr e.2.strength)

/-- Groups after the first, each preceded by the separator (this is the
`first` flag of the encode loop). -/
def routingRest : List (Str × PipMapEntry) → Str
  | [] => []
  | e :: rest => ';' :: (groupStr e ++ routingRest rest)

/-- The `ROUTING` string built by `archInfoToAttributes` for a net. -/
def routingOfWires : List (Str × PipMapEntry) → Str
  | [] => []
  | e :: rest => groupStr e ++ routingRest rest

/-- The `CONSTR_CHILDREN` join of the encode loop: separator only in
front of a non-empty accumulator. -/
def joinChildren (children : List Str) : Str :=
  children.foldl
    (fun constr item => (if constr ≠ [] then constr ++ [';'] else constr) ++ item) []

/-- Per-cell encode step of `BaseCtx::archInfoToAttributes`: when bound,
drop any stale `BEL` attribute and write `NEXTPNR_BEL`/`BEL_STRENGTH`;
then the coordinate constraints (with `CONSTR_ABS_Z` accompanying
`CONSTR_Z`), the parent reference and the joined children names. -/
def encodeCellAttrs (ci : CellInfo) : CellInfo :=
  let attrs := ci.attrs
  let attrs :=
    match ci.bel with
    | some b =>
      alistInsert (alistInsert (alistErase attrs kBEL) kNEXTPNR_BEL (.strVal b))
        kBEL_STRENGTH (.intVal (Int.ofNat ci.belStrength))
    | none => attrs
  let attrs :=
    if ci.constr_x ≠ UNCONSTR then alistInsert attrs kCONSTR_X (.intVal ci.constr_x) else attrs
  let attrs :=
    if ci.constr_y ≠ UNCONSTR then alistInsert attrs kCONSTR_Y (.intVal ci.constr_y) else attrs
  let attrs :=
    if ci.constr_z ≠ UNCONSTR then
      alistInsert (alistInsert attrs kCONSTR_Z (.intVal ci.constr_z)) kCONSTR_ABS_Z
        (.intVal (if ci.constr_abs_z then 1 else 0))
    else attrs
  let attrs :=
    match ci.constr_parent with
    | some p => alistInsert attrs kCONSTR_PARENT (.strVal p)
    | none => attrs
  let attrs :=
    if ci.constr_children ≠ [] then
      alistInsert attrs kCONSTR_CHILDREN (.strVal (joinChildren ci.constr_children))
    else attrs
  { ci with attrs := attrs }

/-- Per-net encode step of `BaseCtx::archInfoToAttributes`. -/
def encodeNetAttrs (ni : NetInfo) : NetInfo :=
  { ni with attrs := alistInsert ni.attrs kROUTING (.strVal (routingOfWires ni.wires)) }

/-- `BaseCtx::archInfoToAttributes`: snapshot every cell's and every
net's binding/constraint state into its attribute map. -/
def archInfoToAttributes (st : DesignState) : DesignState :=
  { st with
    cells := st.cells.map (fun e => (e.1, encodeCellAttrs e.2)),
    nets := st.nets.map (fun e => (e.1, encodeNetAttrs e.2)) }

/-- Constraint and children steps of the per-cell decode, reached only
when the `CONSTR_PARENT` reference (if any) resolves; source order:
`CONSTR_X`, `CONSTR_Y`, `CONSTR_Z`, `CONSTR_ABS_Z`, the second
`CONSTR_PARENT` resolution, `CONSTR_CHILDREN` (unknown children names
are silently dropped). -/
def decodeCellRest (reg : List Str) (ci0 : CellInfo) : CellInfo :=
  let ci :=
    match alistLookup ci0.attrs kCONSTR_X with
    | some v => { ci0 with constr_x := v.as_int64 }
    | none => ci0
  let ci :=
    match alistLookup ci.attrs kCONSTR_Y with
    | some v => { ci with constr_y := v.as_int64 }
    | none => ci
  let ci :=
    match alistLookup ci.attrs kCONSTR_Z with
    | some v => { ci with constr_z := v.as_int64 }
    | none => ci
  let ci :=
    match alistLookup ci.attrs kCONSTR_ABS_Z with
    | some v => { ci with constr_abs_z := decide (v.as_int64 = 1) }
    | none => ci
  let ci :=
    match alistLookup ci.attrs kCONSTR_PARENT with
    | some v =>
      if reg.contains v.as_string then { ci with constr_parent := some v.as_string } else ci
    | none => ci
  let ci :=
    match alistLookup ci.attrs kCONSTR_CHILDREN with
    | some v =>
      { ci with constr_children :=
          ci.constr_children ++ (splitSemi v.as_string).filter (fun s => reg.contains s) }
    | none => ci
  ci

/-- Per-cell decode step of `BaseCtx::attributesToArchInfo` over the
registry domain `reg` (the live cell names; the pass never adds or
removes cells, so the domain is constant): bind `NEXTPNR_BEL` at
`BEL_STRENGTH` (default user strength), then resolve `CONSTR_PARENT` —
whose failure `continue`s past every further attribute of this cell. -/
def decodeCellAttrs (reg : List Str) (ci0 : CellInfo) : CellInfo :=
  let ci :=
    match alistLookup ci0.attrs kNEXTPNR_BEL with
    | some v =>
      let strength :=
        match alistLookup ci0.attrs kBEL_STRENGTH with
        | some s => s.as_int64.toNat
        | none => STRENGTH_USER
      bindBel ci0 v.as_string strength
    | none => ci0
  match alistLookup ci.attrs kCONSTR_PARENT with
  | some v =>
    if reg.contains v.as_string then
      decodeCellRest reg { ci with constr_parent := some v.as_string }
    else ci
  | none => decodeCellRest reg ci

/-- The group the decode loop reads at index `i` of a split `ROUTING`
value: `(bound wire, pip and strength)`. -/
def routingGroupAt (pipDst : Str → Str) (fields : List Str) (i : Nat) : Str × PipMapEntry :=
  let wire := fields.getD (i * 3) []
  let pip := fields.getD (i * 3 + 1) []
  let strength := strToNat (fields.getD (i * 3 + 2) [])
  if pip = [] then (wire, { pip := none, strength := strength })
  else (pipDst pip, { pip := some pip, strength := strength })

/-- All complete 3-field groups, in loop order. -/
def routingGroups (pipDst : Str → Str) (fields : List Str) : List (Str × PipMapEntry) :=
  (List.range (fields.length / 3)).map (routingGroupAt pipDst fields)

/-- Per-net decode step of `BaseCtx::attributesToArchInfo`: split the
`ROUTING` attribute on `';'` and walk `size / 3` complete groups in
order, binding a bare wire (empty pip field) or a driving pip. -/
def decodeNetAttrs (pipDst : Str → Str) (ni : NetInfo) : NetInfo :=
  match alistLookup ni.attrs kROUTING with
  | some v =>
    let fields := splitSemi v.as_string
    (List.range (fields.length / 3)).foldl
      (fun acc i =>
        let pip := fields.getD (i * 3 + 1) []
        if pip = [] then
          bindWire acc (fields.getD (i * 3) []) (strToNat (fields.getD (i * 3 + 2) []))
        else bindPip pipDst acc pip (strToNat (fields.getD (i * 3 + 2) [])))
      ni
  | none => ni

/-- Names in the cell registry. -/
def cellNames (st : DesignState) : List Str := st.cells.map (fun e => e.1)

/-- `BaseCtx::attributesToArchInfo`: restore bindings and constraints
from attributes for every cell and net.  The trailing `assignArchInfo`
is an architecture-service recomputation with no effect on this state.
The second component collects warnings: this pass emits none. -/
def attributesToArchInfo (pipDst : Str → Str) (st : DesignState) : DesignState × List Str :=
  ({ st with
      cells := st.cells.map (fun e => (e.1, decodeCellAttrs (cellNames st) e.2)),
      nets := st.nets.map (fun e => (e.1, decodeNetAttrs pipDst e.2)) }, [])

/-- Modelled from the spec: the fresh, identically-named design the
round-trip decodes into — each entity keeps its name, type, logical
connectivity and attribute map, with no physical binding or constraint
state yet. -/
def freshCellFromAttrs (ci : CellInfo) : CellInfo :=
  { name := ci.name, type := ci.type, ports := ci.ports, attrs := ci.attrs }

/-- Modelled from the spec: fresh net of the identically-named design. -/
def freshNetFromAttrs (ni : NetInfo) : NetInfo :=
  { name := ni.name, driver := ni.driver, users := ni.users, attrs := ni.attrs }

/-- Modelled from the spec: fresh design carrying the persisted
attributes of `st` on identically-named entities. -/
def freshFromAttrs (st : DesignState) : DesignState :=
  { cells := st.cells.map (fun e => (e.1, freshCellFromAttrs e.2)),
    nets := st.nets.map (fun e => (e.1, freshNetFromAttrs e.2)),
    net_aliases := st.net_aliases,
    region := [],
    hierarchy := st.hierarchy }

/-! ## Registries, constraints, mutation primitives -/

/-- Warning text of `addClock` for an unknown net name. -/
def clockWarning (net : Str) : Str :=
  "net ".data ++ net ++ " does not exist in design, ignoring clock constraint".data

/-- Warning text of `constrainCellToRegion` when nothing matches. -/
def noCellMatchedWarning (cell region_name : Str) : Str :=
  "No cell matched ".data ++ cell ++ " when constraining to region ".data ++ region_name

/-- Modelled from the spec: `getNetByAlias` resolves a name through the
alias table to the canonical net. -/
def getNetByAlias (st : DesignState) (name : Str) : Option (Str × NetInfo) :=
  match alistLookup st.net_aliases name with
  | none => none
  | some canonical =>
    match alistLookup st.nets canonical with
    | none => none
    | some ni => some (canonical, ni)

/-- `BaseCtx::addClock`: the clock constraint is always derived first
(from `1000/freq` and `500/freq` nanoseconds through the architecture's
delay conversion, floats embedded as rationals), then attached to the
aliased net — or discarded with a warning when the name is not in the
alias table.  An alias whose canonical net is missing would hard-fail an
`at()` in the source and cannot arise under the alias invariant; the
state is returned unchanged there. -/
def addClock (delayFromNS : Rat → Rat) (st : DesignState) (net : Str) (freq : Rat) :
    DesignState × List Str :=
  let cc : ClockConstraint :=
    { period := delayPair (delayFromNS (1000 / freq)),
      high := delayPair (delayFromNS (500 / freq)),
      low := delayPair (delayFromNS (500 / freq)) }
  if (alistLookup st.net_aliases net).isSome then
    match getNetByAlias st net with
    | some (canonical, ni) =>
      ({ st with nets := alistInsert st.nets canonical { ni with clkconstr := some cc } }, [])
    | none => (st, [])
  else (st, [clockWarning net])

/-- dict `operator[]` on the region table: returns the possibly-null
entry, default-inserting a null `unique_ptr` entry when the key is
absent; second component is the name the resulting `Region*` refers to
(`none` for a null pointer). -/
def regionGet (tab : List (Str × Option RegionInfo)) (name : Str) :
    List (Str × Option RegionInfo) × Option Str :=
  match alistLookup tab name with
  | some (some _) => (tab, some name)
  | some none => (tab, none)
  | none => (alistInsert tab name none, none)

/-- `BaseCtx::addBelToRegion`: `region[name]->bels.insert(bel)`.  The
`operator[]` default-inserts a null entry for an absent name, and the
arrow on a null `unique_ptr` is a crash. -/
def addBelToRegion (st : DesignState) (name bel : Str) : OpResult :=
  match alistLookup st.region name with
  | some (some r) =>
    let r2 : RegionInfo :=
      { r with bels := if r.bels.contains bel then r.bels else r.bels ++ [bel] }
    .ok { st with region := alistInsert st.region name (some r2) }
  | some none => .crashed st
  | none => .crashed { st with region := alistInsert st.region name none }

/-- `BaseCtx::constrainCellToRegion`, with explicit recursion fuel (the
source recurses on the acyclic hierarchy index; any fuel at least the
subtree depth computes the full traversal): fan out through the
hierarchy entry — leaf children first, then nested hierarchical
children, in order — then assign the region pointer (a dict
`operator[]` read) on a leaf cell of that name; warn if nothing
matched. -/
def constrainCellToRegion (fuel : Nat) (st : DesignState) (cell region_name : Str) :
    DesignState × List Str :=
  match fuel with
  | 0 => (st, [])
  | Nat.succ f =>
    let hres :=
      match alistLookup st.hierarchy cell with
      | some hc =>
        let acc1 := hc.leaf_cells.foldl
          (fun (acc : DesignState × List Str) (lc : Str × Str) =>
            let r := constrainCellToRegion f acc.1 lc.2 region_name
            (r.1, acc.2 ++ r.2)) (st, ([] : List Str))
        let acc2 := hc.hier_cells.foldl
          (fun (acc : DesignState × List Str) (hsc : Str × Str) =>
            let r := constrainCellToRegion f acc.1 hsc.2 region_name
            (r.1, acc.2 ++ r.2)) acc1
        (acc2.1, acc2.2, true)
      | none => (st, ([] : List Str), false)
    let st1 := hres.1
    let ws := hres.2.1
    let matchedHier := hres.2.2
    match alistLookup st1.cells cell with
    | some ci =>
      let rg := regionGet st1.region region_name
      ({ st1 with cells := alistInsert st1.cells cell { ci with region := rg.2 },
                  region := rg.1 }, ws)
    | none =>
      if matchedHier then (st1, ws)
      else (st1, ws ++ [noCellMatchedWarning cell region_name])
termination_by fuel

/-- Modelled from the spec: a freshly created empty Net. -/
def emptyNetInfo (name : Str) : NetInfo := { name := name }

/-- `BaseCtx::createNet`: assert the name is in neither the net registry
nor the alias table (`none` embeds the assertion failure), then insert
the empty net and register the name as its own canonical alias. -/
def createNet (st : DesignState) (name : Str) : Option DesignState :=
  if (alistLookup st.nets name).isSome then none
  else if (alistLookup st.net_aliases name).isSome then none
  else
    some { st with
      net_aliases := alistInsert st.net_aliases name name,
      nets := alistInsert st.nets name (emptyNetInfo name) }

/-- Modelled from the spec: a freshly created Cell. -/
def emptyCellInfo (name type : Str) : CellInfo := { name := name, type := type }

/-- `BaseCtx::createCell`: assert-free name, insert the fresh cell. -/
def createCell (st : DesignState) (name type : Str) : Option DesignState :=
  if (alistLookup st.cells name).isSome then none
  else some { st with cells := alistInsert st.cells name (emptyCellInfo name type) }

/-- A sequence of `createNet` calls; an assertion failure aborts the
sequence. -/
def createNets (st : DesignState) : List Str → Option DesignState
  | [] => some st
  | n :: rest =>
    match createNet st n with
    | none => none
    | some st2 => createNets st2 rest

/-- `BaseCtx::ripupNet`: resolve the alias, snapshot the keys of the
net's wires map, then unbind each snapshotted wire via the architecture
service.  An unresolvable name would hard-fail the lookup in the
source; the state is returned unchanged there. -/
def ripupNet (st : DesignState) (name : Str) : DesignState :=
  match getNetByAlias st name with
  | none => st
  | some (_, ni) => (ni.wires.map (fun e => e.1)).foldl unbindWire st

/-! ## Routing string structure -/

/-- A wire entry whose names are representable in the `';'`-separated
encoding (architecture names do not contain the separator). -/
def wireEntryOk (e : Str × PipMapEntry) : Prop :=
  (∀ c ∈ e.1, c ≠ ';') ∧ ∀ c ∈ pipField e, c ≠ ';'

instance (e : Str × PipMapEntry) : Decidable (wireEntryOk e) := by
  unfold wireEntryOk
  infer_instance

theorem splitSemi_group_append (xs : List (Str × PipMapEntry)) :
    ∀ (x : Str × PipMapEntry), wireEntryOk x → (∀ e ∈ xs, wireEntryOk e) →
      splitSemi (groupStr x ++ routingRest xs) = wireFields x ++ wireFieldsOf xs := by
  induction xs with
  | nil =>
    intro x hx _
    rw [routingRest, List.append_nil, groupStr]
    rw [splitSemi_sep x.1 _ hx.1, splitSemi_sep (pipField x) _ hx.2,
      splitSemi_noSemi (natToStr x.2.strength) (natToStr_noSemi x.2.strength)]
    rfl
  | cons y ys ih =>
    intro x hx hall
    have hy : wireEntryOk y := hall y (List.mem_cons_self y ys)
    have hys : ∀ e ∈ ys, wireEntryOk e := fun e he => hall e (List.mem_cons_of_mem y he)
    rw [routingRest, groupStr]
    have hassoc :
        (x.1 ++ ';' :: (pipField x ++ ';' :: natToStr x.2.strength)) ++
            ';' :: (groupStr y ++ routingRest ys) =
          x.1 ++ ';' :: (pipField x ++ ';' ::
            (natToStr x.2.strength ++ ';' :: (groupStr y ++ routingRest ys))) := by
      simp [List.append_assoc]
    rw [hassoc, splitSemi_sep x.1 _ hx.1, splitSemi_sep (pipField x) _ hx.2,
      splitSemi_sep (natToStr x.2.strength) _ (natToStr_noSemi x.2.strength),
      ih y hy hys]
    rfl

theorem splitSemi_routingOfWires (l : List (Str × PipMapEntry)) (hne : l ≠ [])
    (hok : ∀ e ∈ l, wireEntryOk e) : splitSemi (routingOfWires l) = wireFieldsOf l := by
  cases l with
  | nil => exact absurd rfl hne
  | cons x xs =>
    rw [routingOfWires, wireFieldsOf]
    exact splitSemi_group_append xs x (hok x (List.mem_cons_self x xs))
      (fun e he => hok e (List.mem_cons_of_mem x he))

theorem wireFieldsOf_length (l : List (Str × PipMapEntry)) :
    (wireFieldsOf l).length = 3 * l.length := by
  induction l with
  | nil => rfl
  | cons x xs ih =>
    rw [wireFieldsOf, List.length_append, ih]
    simp [wireFields]
    omega

/-- C4: for every Net with at least one bound wire (and names free of
the separator), the `ROUTING` string written by `archInfoToAttributes`
splits on `';'` into exactly `3 * n` fields, one consecutive
`(wire name, pip name or empty, decimal strength)` group per bound
wire, with no extra separator between groups. -/
theorem routing_attribute_splits_into_groups
    (st : DesignState) (n : Str) (ni : NetInfo)
    (hn : alistLookup st.nets n = some ni) (hne : ni.wires ≠ [])
    (hok : ∀ e ∈ ni.wires, wireEntryOk e) :
    (alistLookup (archInfoToAttributes st).nets n).bind
        (fun m => alistLookup m.attrs kROUTING)
        = some (AttrVal.strVal (routingOfWires ni.wires))
      ∧ splitSemi (routingOfWires ni.wires) = wireFieldsOf ni.wires
      ∧ (splitSemi (routingOfWires ni.wires)).length = 3 * ni.wires.length := by
  have hsplit := splitSemi_routingOfWires ni.wires hne hok
  refine ⟨?_, hsplit, ?_⟩
  · have : (archInfoToAttributes st).nets = st.nets.map (fun e => (e.1, encodeNetAttrs e.2)) := rfl
    rw [this, alistLookup_mapVal, hn]
    simp [encodeNetAttrs, alistLookup_insert_self]
  · rw [hsplit]
    exact wireFieldsOf_length ni.wires

/-- Concrete two-wire net used by the C4 witness. -/
def exNet4 : NetInfo :=
  { name := "n".data,
    wires := [("w1".data, { pip := some "p1".data, strength := 2 }),
              ("w2".data, { pip := none, strength := 3 })] }

/-- Concrete design used by the C4 witness. -/
def exState4 : DesignState :=
  { nets := [("n".data, exNet4)] }

/-- Witness for C4 at a concrete two-wire net. -/
theorem routing_attribute_splits_into_groups_witness :
    (alistLookup (archInfoToAttributes exState4).nets "n".data).bind
        (fun m => alistLookup m.attrs kROUTING)
        = some (AttrVal.strVal (routingOfWires exNet4.wires))
      ∧ splitSemi (routingOfWires exNet4.wires) = wireFieldsOf exNet4.wires
      ∧ (splitSemi (routingOfWires exNet4.wires)).length = 3 * exNet4.wires.length :=
  routing_attribute_splits_into_groups exState4 "n".data exNet4
    (by decide) (by decide) (by decide)

/-! ## Registry-level views of the codec passes -/

theorem archInfo_nets_lookup (st : DesignState) (n : Str) :
    alistLookup (archInfoToAttributes st).nets n = (alistLookup st.nets n).map encodeNetAttrs :=
  alistLookup_mapVal encodeNetAttrs st.nets n

theorem archInfo_cells_lookup (st : DesignState) (n : Str) :
    alistLookup (archInfoToAttributes st).cells n
      = (alistLookup st.cells n).map encodeCellAttrs :=
  alistLookup_mapVal encodeCellAttrs st.cells n

theorem fresh_nets_lookup (st : DesignState) (n : Str) :
    alistLookup (freshFromAttrs st).nets n = (alistLookup st.nets n).map freshNetFromAttrs :=
  alistLookup_mapVal freshNetFromAttrs st.nets n

theorem fresh_cells_lookup (st : DesignState) (n : Str) :
    alistLookup (freshFromAttrs st).cells n = (alistLookup st.cells n).map freshCellFromAttrs :=
  alistLookup_mapVal freshCellFromAttrs st.cells n

theorem decode_nets_lookup (pipDst : Str → Str) (st : DesignState) (n : Str) :
    alistLookup (attributesToArchInfo pipDst st).1.nets n
      = (alistLookup st.nets n).map (decodeNetAttrs pipDst) :=
  alistLookup_mapVal (decodeNetAttrs pipDst) st.nets n

theorem decode_cells_lookup (pipDst : Str → Str) (st : DesignState) (n : Str) :
    alistLookup (attributesToArchInfo pipDst st).1.cells n
      = (alistLookup st.cells n).map (decodeCellAttrs (cellNames st)) :=
  alistLookup_mapVal (decodeCellAttrs (cellNames st)) st.cells n

theorem cellNames_mapVal (st : DesignState) (f : CellInfo → CellInfo) :
    cellNames { st with cells := st.cells.map (fun e => (e.1, f e.2)) } = cellNames st := by
  simp [cellNames]

theorem cellNames_archInfo (st : DesignState) :
    cellNames (archInfoToAttributes st) = cellNames st :=
  cellNames_mapVal st encodeCellAttrs

theorem cellNames_fresh (st : DesignState) :
    cellNames (freshFromAttrs st) = cellNames st := by
  simp [cellNames, freshFromAttrs]

/-! ## C2: routing round trip -/

/-- C2: a Net whose wires map holds exactly the bindings
`w1` driven via pip `p1` at strength `s1` and `w2` (no pip) at strength
`s2` — in either iteration order — is encoded by `archInfoToAttributes`
and decoded by `attributesToArchInfo` into a fresh, identically-named
design with exactly those two wire bindings and no others. -/
theorem archInfo_roundtrip_net
    (pipDst : Str → Str) (st : DesignState) (n : Str) (ni : NetInfo)
    (w1 p1 w2 : Str) (s1 s2 : Nat)
    (hn : alistLookup st.nets n = some ni)
    (hw : ni.wires = [(w1, { pip := some p1, strength := s1 }),
                      (w2, { pip := none, strength := s2 })]
        ∨ ni.wires = [(w2, { pip := none, strength := s2 }),
                      (w1, { pip := some p1, strength := s1 })])
    (hw1 : ∀ c ∈ w1, c ≠ ';') (hw2 : ∀ c ∈ w2, c ≠ ';') (hp1 : ∀ c ∈ p1, c ≠ ';')
    (hp1ne : p1 ≠ []) (hne : w1 ≠ w2) (hdst : pipDst p1 = w1) :
    ((alistLookup ((attributesToArchInfo pipDst
          (freshFromAttrs (archInfoToAttributes st))).1.nets) n).bind
        (fun m => alistLookup m.wires w1))
        = some { pip := some p1, strength := s1 }
      ∧ ((alistLookup ((attributesToArchInfo pipDst
            (freshFromAttrs (archInfoToAttributes st))).1.nets) n).bind
          (fun m => alistLookup m.wires w2))
          = some { pip := none, strength := s2 }
      ∧ ∀ w, w ≠ w1 → w ≠ w2 →
          ((alistLookup ((attributesToArchInfo pipDst
              (freshFromAttrs (archInfoToAttributes st))).1.nets) n).bind
            (fun m => alistLookup m.wires w)) = none := by
  have hlookN :
      alistLookup ((attributesToArchInfo pipDst
          (freshFromAttrs (archInfoToAttributes st))).1.nets) n
        = some (decodeNetAttrs pipDst (freshNetFromAttrs (encodeNetAttrs ni))) := by
    rw [decode_nets_lookup, fresh_nets_lookup, archInfo_nets_lookup, hn]
    rfl
  have hattr :
      alistLookup (freshNetFromAttrs (encodeNetAttrs ni)).attrs kROUTING
        = some (AttrVal.strVal (routingOfWires ni.wires)) := by
    show alistLookup (alistInsert ni.attrs kROUTING
      (AttrVal.strVal (routingOfWires ni.wires))) kROUTING = _
    exact alistLookup_insert_self ni.attrs kROUTING _
  have hdec :
      decodeNetAttrs pipDst (freshNetFromAttrs (encodeNetAttrs ni))
        = { freshNetFromAttrs (encodeNetAttrs ni) with
            wires := [(w1, { pip := some p1, strength := s1 }),
                      (w2, { pip := none, strength := s2 })] }
          ∨ decodeNetAttrs pipDst (freshNetFromAttrs (encodeNetAttrs ni))
        = { freshNetFromAttrs (encodeNetAttrs ni) with
            wires := [(w2, { pip := none, strength := s2 }),
                      (w1, { pip := some p1, strength := s1 })] } := by
    rcases hw with hw | hw
    · left
      have hok : ∀ e ∈ ni.wires, wireEntryOk e := by
        rw [hw]
        intro e he
        rcases List.mem_cons.mp he with rfl | he2
        · exact ⟨hw1, by simpa [pipField] using hp1⟩
        · rcases List.mem_singleton.mp he2 with rfl
          exact ⟨hw2, by simp [pipField]⟩
      have hsplit := splitSemi_routingOfWires ni.wires (by rw [hw]; simp) hok
      have hfields : wireFieldsOf ni.wires
          = [w1, p1, natToStr s1, w2, [], natToStr s2] := by
        rw [hw]; simp [wireFieldsOf, wireFields, pipField]
      rw [decodeNetAttrs.eq_def, hattr]
      simp only [AttrVal.as_string, hsplit, hfields]
      have hrange : List.range ([w1, p1, natToStr s1, w2, [], natToStr s2].length / 3)
          = [0, 1] := by simp [List.range_succ]
      rw [hrange]
      simp [List.foldl, List.getD_cons_zero, List.getD_cons_succ, bindPip, bindWire,
        alistInsert, hdst, hp1ne, hne, Ne.symm hne, strToNat_natToStr, freshNetFromAttrs]
    · right
      have hok : ∀ e ∈ ni.wires, wireEntryOk e := by
        rw [hw]
        intro e he
        rcases List.mem_cons.mp he with rfl | he2
        · exact ⟨hw2, by simp [pipField]⟩
        · rcases List.mem_singleton.mp he2 with rfl
          exact ⟨hw1, by simpa [pipField] using hp1⟩
      have hsplit := splitSemi_routingOfWires ni.wires (by rw [hw]; simp) hok
      have hfields : wireFieldsOf ni.wires
          = [w2, [], natToStr s2, w1, p1, natToStr s1] := by
        rw [hw]; simp [wireFieldsOf, wireFields, pipField]
      rw [decodeNetAttrs.eq_def, hattr]
      simp only [AttrVal.as_string, hsplit, hfields]
      have hrange : List.range ([w2, [], natToStr s2, w1, p1, natToStr s1].length / 3)
          = [0, 1] := by simp [List.range_succ]
      rw [hrange]
      simp [List.foldl, List.getD_cons_zero, List.getD_cons_succ, bindPip, bindWire,
        alistInsert, hdst, hp1ne, hne, Ne.symm hne, strToNat_natToStr, freshNetFromAttrs]
  rcases hdec with hdec | hdec <;>
    rw [hlookN, Option.bind, hdec] <;>
      exact ⟨by simp [alistLookup, Ne.symm hne],
             by simp [alistLookup, hne, Ne.symm hne],
             fun w hww1 hww2 => by simp [alistLookup, Ne.symm hww1, Ne.symm hww2]⟩

/-- Concrete two-wire net used by the C2 witness. -/
def exNet2 : NetInfo :=
  { name := "n".data,
    wires := [("w1".data, { pip := some "p1".data, strength := 2 }),
              ("w2".data, { pip := none, strength := 3 })] }

/-- Concrete design used by the C2 witness. -/
def exState2 : DesignState :=
  { nets := [("n".data, exNet2)] }

/-- Concrete pip-to-destination-wire map used by the C2 witness. -/
def exPipDst2 (p : Str) : Str :=
  if p = "p1".data then "w1".data else p

/-- Witness for C2 at a concrete two-wire net. -/
theorem archInfo_roundtrip_net_witness :
    ((alistLookup ((attributesToArchInfo exPipDst2
          (freshFromAttrs (archInfoToAttributes exState2))).1.nets) "n".data).bind
        (fun m => alistLookup m.wires "w1".data))
        = some { pip := some "p1".data, strength := 2 }
      ∧ ((alistLookup ((attributesToArchInfo exPipDst2
            (freshFromAttrs (archInfoToAttributes exState2))).1.nets) "n".data).bind
          (fun m => alistLookup m.wires "w2".data))
          = some { pip := none, strength := 3 }
      ∧ ∀ w, w ≠ "w1".data → w ≠ "w2".data →
          ((alistLookup ((attributesToArchInfo exPipDst2
              (freshFromAttrs (archInfoToAttributes exState2))).1.nets) "n".data).bind
            (fun m => alistLookup m.wires w)) = none :=
  archInfo_roundtrip_net exPipDst2 exState2 "n".data exNet2
    "w1".data "p1".data "w2".data 2 3
    (by decide) (by decide) (by decide) (by decide) (by decide)
    (by decide) (by decide) (by decide)

/-! ## C10: decode of incomplete routing groups -/

theorem decode_body_eq_insert (pipDst : Str → Str) (fields : List Str)
    (acc : NetInfo) (i : Nat) :
    (if fields.getD (i * 3 + 1) [] = [] then
        bindWire acc (fields.getD (i * 3) []) (strToNat (fields.getD (i * 3 + 2) []))
      else bindPip pipDst acc (fields.getD (i * 3 + 1) [])
        (strToNat (fields.getD (i * 3 + 2) [])))
      = { acc with wires := alistInsert acc.wires (routingGroupAt pipDst fields i).1 (routingGroupAt pipDst fields i).2 } := by
  by_cases hp : fields.getD (i * 3 + 1) [] = []
  · rw [if_pos hp]
    simp only [routingGroupAt]
    rw [if_pos hp]
    rfl
  · rw [if_neg hp]
    simp only [routingGroupAt]
    rw [if_neg hp]
    rfl

theorem decode_foldl_eq_groups (pipDst : Str → Str) (fields : List Str) :
    ∀ (l : List Nat) (acc : NetInfo),
      l.foldl
        (fun acc i =>
          if fields.getD (i * 3 + 1) [] = [] then
            bindWire acc (fields.getD (i * 3) []) (strToNat (fields.getD (i * 3 + 2) []))
          else bindPip pipDst acc (fields.getD (i * 3 + 1) [])
            (strToNat (fields.getD (i * 3 + 2) [])))
        acc
        = { acc with wires := (l.map (routingGroupAt pipDst fields)).foldl (fun ws g => alistInsert ws g.1 g.2) acc.wires } := by
  intro l
  induction l with
  | nil => intro acc; rfl
  | cons i rest ih =>
    intro acc
    rw [List.foldl_cons, List.map_cons, List.foldl_cons,
      decode_body_eq_insert pipDst fields acc i, ih]

/-- The per-net decode is the fold of the complete 3-field groups over
the net's wires map. -/
theorem decodeNetAttrs_eq_groups (pipDst : Str → Str) (ni : NetInfo) (v : AttrVal)
    (h : alistLookup ni.attrs kROUTING = some v) :
    decodeNetAttrs pipDst ni
      = { ni with wires := (routingGroups pipDst (splitSemi v.as_string)).foldl (fun ws g => alistInsert ws g.1 g.2) ni.wires } := by
  rw [decodeNetAttrs.eq_def, h]
  simp only
  rw [decode_foldl_eq_groups pipDst (splitSemi v.as_string) _ ni]
  rfl

theorem getD_take_of_lt {α : Type} (l : List α) (m j : Nat) (d : α) (h : j < m) :
    (l.take m).getD j d = l.getD j d := by
  induction l generalizing m j with
  | nil => simp
  | cons a as ih =>
    cases m with
    | zero => omega
    | succ m2 =>
      cases j with
      | zero => simp
      | succ j2 =>
        simp only [List.take, List.getD_cons_succ]
        exact ih m2 j2 (by omega)

/-- C10: when the `ROUTING` attribute splits into a field count that is
not a multiple of 3 (the empty string splitting into one empty field
included), the decode processes exactly the first `fields / 3` complete
3-field groups — every group access is in bounds, the group list is
unchanged by dropping the 1 or 2 trailing leftover fields, and the
decoded wires map is the fold of exactly those complete groups. -/
theorem decode_routing_ignores_trailing_fields
    (pipDst : Str → Str) (ni : NetInfo) (r : Str)
    (hattr : alistLookup ni.attrs kROUTING = some (AttrVal.strVal r))
    (h3 : ¬ (3 ∣ (splitSemi r).length)) :
    routingGroups pipDst (splitSemi r)
        = routingGroups pipDst ((splitSemi r).take (3 * ((splitSemi r).length / 3)))
      ∧ (routingGroups pipDst (splitSemi r)).length = (splitSemi r).length / 3
      ∧ (∀ i ∈ List.range ((splitSemi r).length / 3), i * 3 + 2 < (splitSemi r).length)
      ∧ decodeNetAttrs pipDst ni
          = { ni with wires := (routingGroups pipDst (splitSemi r)).foldl (fun ws g => alistInsert ws g.1 g.2) ni.wires } := by
  have hlen : ((splitSemi r).take (3 * ((splitSemi r).length / 3))).length
      = 3 * ((splitSemi r).length / 3) := by
    rw [List.length_take]
    omega
  refine ⟨?_, ?_, ?_, ?_⟩
  · unfold routingGroups
    rw [hlen]
    rw [Nat.mul_div_cancel_left _ (by omega : (0:Nat) < 3)]
    refine List.map_congr_left ?_
    intro i hi
    have hi2 : i < (splitSemi r).length / 3 := List.mem_range.mp hi
    unfold routingGroupAt
    rw [getD_take_of_lt _ _ _ _ (by omega), getD_take_of_lt _ _ _ _ (by omega),
      getD_take_of_lt _ _ _ _ (by omega)]
  · unfold routingGroups
    simp
  · intro i hi
    have hi2 : i < (splitSemi r).length / 3 := List.mem_range.mp hi
    omega
  · exact decodeNetAttrs_eq_groups pipDst ni _ hattr

/-- Concrete net with a 4-field `ROUTING` value used by the C10
witness. -/
def exNet10 : NetInfo :=
  { name := "n".data, attrs := [(kROUTING, AttrVal.strVal "w;;1;x".data)] }

/-- Witness for C10: a `ROUTING` string of four fields decodes as one
complete group, the trailing field ignored. -/
theorem decode_routing_ignores_trailing_fields_witness :
    routingGroups (fun p => p) (splitSemi "w;;1;x".data)
        = routingGroups (fun p => p)
            ((splitSemi "w;;1;x".data).take (3 * ((splitSemi "w;;1;x".data).length / 3)))
      ∧ (routingGroups (fun p => p) (splitSemi "w;;1;x".data)).length
          = (splitSemi "w;;1;x".data).length / 3
      ∧ (∀ i ∈ List.range ((splitSemi "w;;1;x".data).length / 3),
          i * 3 + 2 < (splitSemi "w;;1;x".data).length)
      ∧ decodeNetAttrs (fun p => p) exNet10
          = { exNet10 with wires := (routingGroups (fun p => p) (splitSemi "w;;1;x".data)).foldl (fun ws g => alistInsert ws g.1 g.2) exNet10.wires } :=
  decode_routing_ignores_trailing_fields (fun p => p) exNet10 "w;;1;x".data
    (by decide) (by decide)

/-! ## C1: cell round trip -/

theorem decodeCellAttrs_fields (reg : List Str) (d : CellInfo) (b : Str) (k : Nat)
    (x y z : Int) (abs : Bool)
    (hN : alistLookup d.attrs kNEXTPNR_BEL = some (AttrVal.strVal b))
    (hS : alistLookup d.attrs kBEL_STRENGTH = some (AttrVal.intVal (Int.ofNat k)))
    (hP : alistLookup d.attrs kCONSTR_PARENT = none)
    (hX : alistLookup d.attrs kCONSTR_X = some (AttrVal.intVal x))
    (hY : alistLookup d.attrs kCONSTR_Y = some (AttrVal.intVal y))
    (hZ : alistLookup d.attrs kCONSTR_Z = some (AttrVal.intVal z))
    (hA : alistLookup d.attrs kCONSTR_ABS_Z
        = some (AttrVal.intVal (if abs then 1 else 0))) :
    (decodeCellAttrs reg d).bel = some b
      ∧ (decodeCellAttrs reg d).belStrength = k
      ∧ (decodeCellAttrs reg d).constr_x = x
      ∧ (decodeCellAttrs reg d).constr_y = y
      ∧ (decodeCellAttrs reg d).constr_z = z
      ∧ (decodeCellAttrs reg d).constr_abs_z = abs := by
  have hd : decodeCellAttrs reg d = decodeCellRest reg (bindBel d b k) := by
    rw [decodeCellAttrs.eq_def]
    simp only [hN, hS, hP, AttrVal.as_string, AttrVal.as_int64, bindBel]
    simp [show (Int.ofNat k).toNat = k from rfl]
  have hrest : ∀ (ci : CellInfo), ci.attrs = d.attrs →
      (decodeCellRest reg ci).bel = ci.bel
        ∧ (decodeCellRest reg ci).belStrength = ci.belStrength
        ∧ (decodeCellRest reg ci).constr_x = x
        ∧ (decodeCellRest reg ci).constr_y = y
        ∧ (decodeCellRest reg ci).constr_z = z
        ∧ (decodeCellRest reg ci).constr_abs_z = abs := by
    intro ci hattrs
    rw [decodeCellRest.eq_def]
    simp only [hattrs, hX, hY, hZ, hA, hP, AttrVal.as_int64]
    cases hch : alistLookup d.attrs kCONSTR_CHILDREN <;>
      cases abs <;> simp [hch]
  rw [hd]
  have := hrest (bindBel d b k) rfl
  rw [show (bindBel d b k).bel = some b from rfl,
    show (bindBel d b k).belStrength = k from rfl] at this
  exact this

theorem encodeCellAttrs_lookups (c : CellInfo) (b : Str)
    (hb : c.bel = some b)
    (hx : c.constr_x ≠ UNCONSTR) (hy : c.constr_y ≠ UNCONSTR) (hz : c.constr_z ≠ UNCONSTR)
    (hp : c.constr_parent = none)
    (hpa : alistLookup c.attrs kCONSTR_PARENT = none) :
    alistLookup (encodeCellAttrs c).attrs kNEXTPNR_BEL = some (AttrVal.strVal b)
      ∧ alistLookup (encodeCellAttrs c).attrs kBEL_STRENGTH
          = some (AttrVal.intVal (Int.ofNat c.belStrength))
      ∧ alistLookup (encodeCellAttrs c).attrs kCONSTR_PARENT = none
      ∧ alistLookup (encodeCellAttrs c).attrs kCONSTR_X
          = some (AttrVal.intVal c.constr_x)
      ∧ alistLookup (encodeCellAttrs c).attrs kCONSTR_Y
          = some (AttrVal.intVal c.constr_y)
      ∧ alistLookup (encodeCellAttrs c).attrs kCONSTR_Z
          = some (AttrVal.intVal c.constr_z)
      ∧ alistLookup (encodeCellAttrs c).attrs kCONSTR_ABS_Z
          = some (AttrVal.intVal (if c.constr_abs_z then 1 else 0)) := by
  have henc : (encodeCellAttrs c).attrs =
      (if c.constr_children ≠ [] then
        alistInsert
          (alistInsert
            (alistInsert
              (alistInsert
                (alistInsert
                  (alistInsert
                    (alistInsert (alistErase c.attrs kBEL) kNEXTPNR_BEL (AttrVal.strVal b))
                    kBEL_STRENGTH (AttrVal.intVal (Int.ofNat c.belStrength)))
                  kCONSTR_X (AttrVal.intVal c.constr_x))
                kCONSTR_Y (AttrVal.intVal c.constr_y))
              kCONSTR_Z (AttrVal.intVal c.constr_z))
            kCONSTR_ABS_Z (AttrVal.intVal (if c.constr_abs_z then 1 else 0)))
          kCONSTR_CHILDREN (AttrVal.strVal (joinChildren c.constr_children))
      else
        alistInsert
          (alistInsert
            (alistInsert
              (alistInsert
                (alistInsert
                  (alistInsert (alistErase c.attrs kBEL) kNEXTPNR_BEL (AttrVal.strVal b))
                  kBEL_STRENGTH (AttrVal.intVal (Int.ofNat c.belStrength)))
                kCONSTR_X (AttrVal.intVal c.constr_x))
              kCONSTR_Y (AttrVal.intVal c.constr_y))
            kCONSTR_Z (AttrVal.intVal c.constr_z))
          kCONSTR_ABS_Z (AttrVal.intVal (if c.constr_abs_z then 1 else 0))) := by
    rw [encodeCellAttrs]
    rw [hb, hp]
    rw [if_pos hx, if_pos hy, if_pos hz]
  by_cases hch : c.constr_children ≠ []
  · rw [henc, if_pos hch]
    refine ⟨?_, ?_, ?_, ?_, ?_, ?_, ?_⟩
    · rw [alistLookup_insert_ne _ _ _ _ (by decide), alistLookup_insert_ne _ _ _ _ (by decide),
        alistLookup_insert_ne _ _ _ _ (by decide), alistLookup_insert_ne _ _ _ _ (by decide),
        alistLookup_insert_ne _ _ _ _ (by decide), alistLookup_insert_ne _ _ _ _ (by decide),
        alistLookup_insert_self]
    · rw [alistLookup_insert_ne _ _ _ _ (by decide), alistLookup_insert_ne _ _ _ _ (by decide),
        alistLookup_insert_ne _ _ _ _ (by decide), alistLookup_insert_ne _ _ _ _ (by decide),
        alistLookup_insert_ne _ _ _ _ (by decide), alistLookup_insert_self]
    · rw [alistLookup_insert_ne _ _ _ _ (by decide), alistLookup_insert_ne _ _ _ _ (by decide),
        alistLookup_insert_ne _ _ _ _ (by decide), alistLookup_insert_ne _ _ _ _ (by decide),
        alistLookup_insert_ne _ _ _ _ (by decide), alistLookup_insert_ne _ _ _ _ (by decide),
        alistLookup_insert_ne _ _ _ _ (by decide), alistLookup_erase_ne _ _ _ (by decide), hpa]
    · rw [alistLookup_insert_ne _ _ _ _ (by decide), alistLookup_insert_ne _ _ _ _ (by decide),
        alistLookup_insert_ne _ _ _ _ (by decide), alistLookup_insert_ne _ _ _ _ (by decide),
        alistLookup_insert_self]
    · rw [alistLookup_insert_ne _ _ _ _ (by decide), alistLookup_insert_ne _ _ _ _ (by decide),
        alistLookup_insert_ne _ _ _ _ (by decide), alistLookup_insert_self]
    · rw [alistLookup_insert_ne _ _ _ _ (by decide), alistLookup_insert_ne _ _ _ _ (by decide),
        alistLookup_insert_self]
    · rw [alistLookup_insert_ne _ _ _ _ (by decide), alistLookup_insert_self]
  · rw [henc, if_neg hch]
    refine ⟨?_, ?_, ?_, ?_, ?_, ?_, ?_⟩
    · rw [alistLookup_insert_ne _ _ _ _ (by decide), alistLookup_insert_ne _ _ _ _ (by decide),
        alistLookup_insert_ne _ _ _ _ (by decide), alistLookup_insert_ne _ _ _ _ (by decide),
        alistLookup_insert_ne _ _ _ _ (by decide), alistLookup_insert_self]
    · rw [alistLookup_insert_ne _ _ _ _ (by decide), alistLookup_insert_ne _ _ _ _ (by decide),
        alistLookup_insert_ne _ _ _ _ (by decide), alistLookup_insert_ne _ _ _ _ (by decide),
        alistLookup_insert_self]
    · rw [alistLookup_insert_ne _ _ _ _ (by decide), alistLookup_insert_ne _ _ _ _ (by decide),
        alistLookup_insert_ne _ _ _ _ (by decide), alistLookup_insert_ne _ _ _ _ (by decide),
        alistLookup_insert_ne _ _ _ _ (by decide), alistLookup_insert_ne _ _ _ _ (by decide),
        alistLookup_erase_ne _ _ _ (by decide), hpa]
    · rw [alistLookup_insert_ne _ _ _ _ (by decide), alistLookup_insert_ne _ _ _ _ (by decide),
        alistLookup_insert_ne _ _ _ _ (by decide), alistLookup_insert_self]
    · rw [alistLookup_insert_ne _ _ _ _ (by decide), alistLookup_insert_ne _ _ _ _ (by decide),
        alistLookup_insert_self]
    · rw [alistLookup_insert_ne _ _ _ _ (by decide), alistLookup_insert_self]
    · rw [alistLookup_insert_self]

/-- C1: a Cell bound to a site at some strength and carrying all four
coordinate constraints, with no `CONSTR_PARENT` attribute, is encoded by
`archInfoToAttributes` and decoded by `attributesToArchInfo` into a
fresh, identically-named design with the same site binding, the same
strength and the same four coordinate-constraint values. -/
theorem archInfo_roundtrip_cell
    (pipDst : Str → Str) (st : DesignState) (n : Str) (c : CellInfo) (b : Str)
    (hc : alistLookup st.cells n = some c)
    (hb : c.bel = some b)
    (hx : c.constr_x ≠ UNCONSTR) (hy : c.constr_y ≠ UNCONSTR) (hz : c.constr_z ≠ UNCONSTR)
    (hp : c.constr_parent = none)
    (hpa : alistLookup c.attrs kCONSTR_PARENT = none) :
    (alistLookup ((attributesToArchInfo pipDst
          (freshFromAttrs (archInfoToAttributes st))).1.cells) n).map CellInfo.bel
        = some (some b)
      ∧ (alistLookup ((attributesToArchInfo pipDst
            (freshFromAttrs (archInfoToAttributes st))).1.cells) n).map CellInfo.belStrength
          = some c.belStrength
      ∧ (alistLookup ((attributesToArchInfo pipDst
            (freshFromAttrs (archInfoToAttributes st))).1.cells) n).map CellInfo.constr_x
          = some c.constr_x
      ∧ (alistLookup ((attributesToArchInfo pipDst
            (freshFromAttrs (archInfoToAttributes st))).1.cells) n).map CellInfo.constr_y
          = some c.constr_y
      ∧ (alistLookup ((attributesToArchInfo pipDst
            (freshFromAttrs (archInfoToAttributes st))).1.cells) n).map CellInfo.constr_z
          = some c.constr_z
      ∧ (alistLookup ((attributesToArchInfo pipDst
            (freshFromAttrs (archInfoToAttributes st))).1.cells) n).map CellInfo.constr_abs_z
          = some c.constr_abs_z := by
  have hL : alistLookup ((attributesToArchInfo pipDst
        (freshFromAttrs (archInfoToAttributes st))).1.cells) n
      = some (decodeCellAttrs (cellNames (freshFromAttrs (archInfoToAttributes st)))
          (freshCellFromAttrs (encodeCellAttrs c))) := by
    rw [decode_cells_lookup, fresh_cells_lookup, archInfo_cells_lookup, hc]
    rfl
  obtain ⟨eN, eS, eP, eX, eY, eZ, eA⟩ := encodeCellAttrs_lookups c b hb hx hy hz hp hpa
  have hfields := decodeCellAttrs_fields
    (cellNames (freshFromAttrs (archInfoToAttributes st)))
    (freshCellFromAttrs (encodeCellAttrs c)) b c.belStrength
    c.constr_x c.constr_y c.constr_z c.constr_abs_z
    eN eS eP eX eY eZ eA
  obtain ⟨f1, f2, f3, f4, f5, f6⟩ := hfields
  rw [hL]
  exact ⟨by simp [f1], by simp [f2], by simp [f3], by simp [f4], by simp [f5], by simp [f6]⟩

/-- Concrete bound and constrained cell used by the C1 witness. -/
def exCell1 : CellInfo :=
  { name := "a".data, type := "t".data, bel := some "B1".data, belStrength := 2,
    constr_x := 3, constr_y := 4, constr_z := 5, constr_abs_z := true }

/-- Concrete design used by the C1 witness. -/
def exState1 : DesignState :=
  { cells := [("a".data, exCell1)] }

/-- Witness for C1 at a concrete cell. -/
theorem archInfo_roundtrip_cell_witness :
    (alistLookup ((attributesToArchInfo (fun p => p)
          (freshFromAttrs (archInfoToAttributes exState1))).1.cells) "a".data).map CellInfo.bel
        = some (some "B1".data)
      ∧ (alistLookup ((attributesToArchInfo (fun p => p)
            (freshFromAttrs (archInfoToAttributes exState1))).1.cells) "a".data).map
            CellInfo.belStrength
          = some 2
      ∧ (alistLookup ((attributesToArchInfo (fun p => p)
            (freshFromAttrs (archInfoToAttributes exState1))).1.cells) "a".data).map
            CellInfo.constr_x
          = some 3
      ∧ (alistLookup ((attributesToArchInfo (fun p => p)
            (freshFromAttrs (archInfoToAttributes exState1))).1.cells) "a".data).map
            CellInfo.constr_y
          = some 4
      ∧ (alistLookup ((attributesToArchInfo (fun p => p)
            (freshFromAttrs (archInfoToAttributes exState1))).1.cells) "a".data).map
            CellInfo.constr_z
          = some 5
      ∧ (alistLookup ((attributesToArchInfo (fun p => p)
            (freshFromAttrs (archInfoToAttributes exState1))).1.cells) "a".data).map
            CellInfo.constr_abs_z
          = some true :=
  archInfo_roundtrip_cell (fun p => p) exState1 "a".data exCell1 "B1".data
    (by decide) (by decide) (by decide) (by decide) (by decide) (by decide) (by decide)

/-! ## C3: dangling CONSTR_PARENT during decode -/

/-- Concrete cell whose `CONSTR_PARENT` names a cell absent from the
registry while `CONSTR_X` is present. -/
def exCell3 : CellInfo :=
  { name := "a".data,
    attrs := [(kCONSTR_PARENT, AttrVal.strVal "ghost".data),
              (kCONSTR_X, AttrVal.intVal 5)] }

/-- Concrete one-cell design used for C3. -/
def exState3 : DesignState :=
  { cells := [("a".data, exCell3)] }

/-- Counterexample to C3 as stated: decoding a design whose only cell
carries a `CONSTR_PARENT` naming a nonexistent cell and a `CONSTR_X` of
5 produces no warning, and the cell's `constr_x` is not set to 5 (the
whole remainder of that cell's attribute processing is skipped). -/
theorem decode_dangling_parent_counterexample :
    alistLookup exState3.cells "ghost".data = none
      ∧ alistLookup exCell3.attrs kCONSTR_X = some (AttrVal.intVal 5)
      ∧ (attributesToArchInfo (fun p => p) exState3).2 = []
      ∧ (alistLookup ((attributesToArchInfo (fun p => p) exState3).1.cells) "a".data).map
          CellInfo.constr_x ≠ some 5 := by
  refine ⟨by decide, by decide, rfl, by decide⟩

/-- C3 (amended): when `CONSTR_PARENT` names a cell that is not in the
registry, the decode emits no warning and `continue`s past the whole
remainder of that cell's attribute processing: `CONSTR_X`, `CONSTR_Y`,
`CONSTR_Z`, `CONSTR_ABS_Z` and `CONSTR_CHILDREN` are not applied, every
constraint field keeps its prior value, and only the `NEXTPNR_BEL`
binding step (which precedes the parent resolution) takes effect. -/
theorem decode_dangling_parent_skips_rest
    (reg : List Str) (ci : CellInfo) (v : AttrVal)
    (hv : alistLookup ci.attrs kCONSTR_PARENT = some v)
    (hmiss : reg.contains v.as_string = false) :
    (decodeCellAttrs reg ci).constr_x = ci.constr_x
      ∧ (decodeCellAttrs reg ci).constr_y = ci.constr_y
      ∧ (decodeCellAttrs reg ci).constr_z = ci.constr_z
      ∧ (decodeCellAttrs reg ci).constr_abs_z = ci.constr_abs_z
      ∧ (decodeCellAttrs reg ci).constr_parent = ci.constr_parent
      ∧ (decodeCellAttrs reg ci).constr_children = ci.constr_children
      ∧ (decodeCellAttrs reg ci).attrs = ci.attrs
      ∧ ∀ (pipDst : Str → Str) (st : DesignState), (attributesToArchInfo pipDst st).2 = [] := by
  have hnm : ¬ (v.as_string ∈ reg) := by simpa using hmiss
  rw [decodeCellAttrs.eq_def]
  cases hbel : alistLookup ci.attrs kNEXTPNR_BEL <;>
    simp [hbel, hv, hmiss, hnm, bindBel] <;>
      exact fun pipDst st => rfl

/-- Witness for the amended C3 at a concrete cell. -/
theorem decode_dangling_parent_skips_rest_witness :
    (decodeCellAttrs ["a".data] exCell3).constr_x = exCell3.constr_x
      ∧ (decodeCellAttrs ["a".data] exCell3).constr_y = exCell3.constr_y
      ∧ (decodeCellAttrs ["a".data] exCell3).constr_z = exCell3.constr_z
      ∧ (decodeCellAttrs ["a".data] exCell3).constr_abs_z = exCell3.constr_abs_z
      ∧ (decodeCellAttrs ["a".data] exCell3).constr_parent = exCell3.constr_parent
      ∧ (decodeCellAttrs ["a".data] exCell3).constr_children = exCell3.constr_children
      ∧ (decodeCellAttrs ["a".data] exCell3).attrs = exCell3.attrs
      ∧ ∀ (pipDst : Str → Str) (st : DesignState), (attributesToArchInfo pipDst st).2 = [] :=
  decode_dangling_parent_skips_rest ["a".data] exCell3 (AttrVal.strVal "ghost".data)
    (by decide) (by decide)

/-! ## C5: hierarchical constraint fan-out -/

theorem regionGet_live (tab : List (Str × Option RegionInfo)) (name : Str) (r : RegionInfo)
    (h : alistLookup tab name = some (some r)) : regionGet tab name = (tab, some name) := by
  unfold regionGet
  rw [h]

theorem constrain_leaf_cell (f : Nat) (st : DesignState) (c rn : Str) (ci : CellInfo)
    (r : RegionInfo)
    (hh : alistLookup st.hierarchy c = none)
    (hc : alistLookup st.cells c = some ci)
    (hr : alistLookup st.region rn = some (some r)) :
    constrainCellToRegion (f + 1) st c rn
      = ({ st with cells := alistInsert st.cells c { ci with region := some rn } }, []) := by
  rw [constrainCellToRegion.eq_def]
  simp only [hh, hc, regionGet_live st.region rn r hr]

theorem constrain_nomatch (f : Nat) (st : DesignState) (X rn : Str)
    (hh : alistLookup st.hierarchy X = none)
    (hc : alistLookup st.cells X = none) :
    constrainCellToRegion (f + 1) st X rn = (st, [noCellMatchedWarning X rn]) := by
  rw [constrainCellToRegion.eq_def]
  simp [hh, hc]

/-- C5: for a hierarchy index with entry `H` holding leaf cells
`c1, c2` and nested hierarchy child `H2`, and `H2` holding leaf cell
`c3`, `constrainCellToRegion` on `H` assigns the live Region `R` to
`c1`, `c2` and `c3` (replacing any previous assignment, leaf children
visited before nested hierarchy children) with no warning; and a name
matching neither a hierarchy entry nor a leaf cell produces only a
warning and leaves the state unchanged. -/
theorem constrainCellToRegion_fanout
    (f : Nat) (st : DesignState) (H H2 R n1 c1 n2 c2 m n3 c3 : Str)
    (i1 i2 i3 : CellInfo) (r : RegionInfo)
    (hH : alistLookup st.hierarchy H
        = some { leaf_cells := [(n1, c1), (n2, c2)], hier_cells := [(m, H2)] })
    (hH2 : alistLookup st.hierarchy H2 = some { leaf_cells := [(n3, c3)], hier_cells := [] })
    (h1 : alistLookup st.hierarchy c1 = none)
    (h2 : alistLookup st.hierarchy c2 = none)
    (h3 : alistLookup st.hierarchy c3 = none)
    (hc1 : alistLookup st.cells c1 = some i1)
    (hc2 : alistLookup st.cells c2 = some i2)
    (hc3 : alistLookup st.cells c3 = some i3)
    (hHc : alistLookup st.cells H = none)
    (hH2c : alistLookup st.cells H2 = none)
    (hr : alistLookup st.region R = some (some r))
    (h12 : c1 ≠ c2) (h13 : c1 ≠ c3) (h23 : c2 ≠ c3) :
    (alistLookup ((constrainCellToRegion (f + 3) st H R).1).cells c1).map CellInfo.region
        = some (some R)
      ∧ (alistLookup ((constrainCellToRegion (f + 3) st H R).1).cells c2).map CellInfo.region
          = some (some R)
      ∧ (alistLookup ((constrainCellToRegion (f + 3) st H R).1).cells c3).map CellInfo.region
          = some (some R)
      ∧ (constrainCellToRegion (f + 3) st H R).2 = []
      ∧ ∀ X, alistLookup st.hierarchy X = none → alistLookup st.cells X = none →
          constrainCellToRegion (f + 1) st X R = (st, [noCellMatchedWarning X R]) := by
  have hH2ne1 : H2 ≠ c1 := by
    intro he; rw [he, hc1] at hH2c; exact Option.noConfusion hH2c
  have hH2ne2 : H2 ≠ c2 := by
    intro he; rw [he, hc2] at hH2c; exact Option.noConfusion hH2c
  have hH2ne3 : H2 ≠ c3 := by
    intro he; rw [he, hc3] at hH2c; exact Option.noConfusion hH2c
  have hHne1 : H ≠ c1 := by
    intro he; rw [he, hc1] at hHc; exact Option.noConfusion hHc
  have hHne2 : H ≠ c2 := by
    intro he; rw [he, hc2] at hHc; exact Option.noConfusion hHc
  have hHne3 : H ≠ c3 := by
    intro he; rw [he, hc3] at hHc; exact Option.noConfusion hHc
  have hst1c2 : alistLookup (alistInsert st.cells c1 { i1 with region := some R }) c2
      = some i2 := by
    rw [alistLookup_insert_ne _ _ _ _ (Ne.symm h12), hc2]
  have hst2c3 : alistLookup
      (alistInsert (alistInsert st.cells c1 { i1 with region := some R }) c2
        { i2 with region := some R }) c3 = some i3 := by
    rw [alistLookup_insert_ne _ _ _ _ (Ne.symm h23),
      alistLookup_insert_ne _ _ _ _ (Ne.symm h13), hc3]
  have hst3H2 : alistLookup
      (alistInsert
        (alistInsert (alistInsert st.cells c1 { i1 with region := some R }) c2
          { i2 with region := some R }) c3 { i3 with region := some R }) H2 = none := by
    rw [alistLookup_insert_ne _ _ _ _ hH2ne3, alistLookup_insert_ne _ _ _ _ hH2ne2,
      alistLookup_insert_ne _ _ _ _ hH2ne1, hH2c]
  have hst3H : alistLookup
      (alistInsert
        (alistInsert (alistInsert st.cells c1 { i1 with region := some R }) c2
          { i2 with region := some R }) c3 { i3 with region := some R }) H = none := by
    rw [alistLookup_insert_ne _ _ _ _ hHne3, alistLookup_insert_ne _ _ _ _ hHne2,
      alistLookup_insert_ne _ _ _ _ hHne1, hHc]
  have e1 : constrainCellToRegion (f + 2) st c1 R
      = ({ st with cells := alistInsert st.cells c1 { i1 with region := some R } }, []) :=
    constrain_leaf_cell (f + 1) st c1 R i1 r h1 hc1 hr
  have e2 : constrainCellToRegion (f + 2)
        { st with cells := alistInsert st.cells c1 { i1 with region := some R } } c2 R
      = ({ st with cells := alistInsert (alistInsert st.cells c1 { i1 with region := some R }) c2 { i2 with region := some R } }, []) :=
    constrain_leaf_cell (f + 1) _ c2 R i2 r h2 hst1c2 hr
  have e4 : constrainCellToRegion (f + 1)
        { st with cells := alistInsert (alistInsert st.cells c1 { i1 with region := some R }) c2 { i2 with region := some R } } c3 R
      = ({ st with cells := alistInsert (alistInsert (alistInsert st.cells c1 { i1 with region := some R }) c2 { i2 with region := some R }) c3 { i3 with region := some R } }, []) :=
    constrain_leaf_cell f _ c3 R i3 r h3 hst2c3 hr
  have e3 : constrainCellToRegion (f + 2)
        { st with cells := alistInsert (alistInsert st.cells c1 { i1 with region := some R }) c2 { i2 with region := some R } } H2 R
      = ({ st with cells := alistInsert (alistInsert (alistInsert st.cells c1 { i1 with region := some R }) c2 { i2 with region := some R }) c3 { i3 with region := some R } }, []) := by
    rw [constrainCellToRegion.eq_def]
    simp only [hH2, List.foldl_cons, List.foldl_nil, e4, List.nil_append, List.append_nil,
      hst3H2]
    simp
  have hmain : constrainCellToRegion (f + 3) st H R
      = ({ st with cells := alistInsert (alistInsert (alistInsert st.cells c1 { i1 with region := some R }) c2 { i2 with region := some R }) c3 { i3 with region := some R } }, []) := by
    rw [constrainCellToRegion.eq_def]
    simp only [hH, List.foldl_cons, List.foldl_nil, e1, e2, e3, List.nil_append,
      List.append_nil, hst3H]
    simp
  refine ⟨?_, ?_, ?_, ?_, ?_⟩
  · rw [hmain]
    show (alistLookup (alistInsert (alistInsert (alistInsert st.cells c1 { i1 with region := some R }) c2 { i2 with region := some R }) c3 { i3 with region := some R }) c1).map CellInfo.region = some (some R)
    rw [alistLookup_insert_ne _ _ _ _ h13, alistLookup_insert_ne _ _ _ _ h12,
      alistLookup_insert_self]
    rfl
  · rw [hmain]
    show (alistLookup (alistInsert (alistInsert (alistInsert st.cells c1 { i1 with region := some R }) c2 { i2 with region := some R }) c3 { i3 with region := some R }) c2).map CellInfo.region = some (some R)
    rw [alistLookup_insert_ne _ _ _ _ h23, alistLookup_insert_self]
    rfl
  · rw [hmain]
    show (alistLookup (alistInsert (alistInsert (alistInsert st.cells c1 { i1 with region := some R }) c2 { i2 with region := some R }) c3 { i3 with region := some R }) c3).map CellInfo.region = some (some R)
    rw [alistLookup_insert_self]
    rfl
  · rw [hmain]
  · intro X hx1 hx2
    exact constrain_nomatch f st X R hx1 hx2

/-- Concrete hierarchical design used by the C5 witness. -/
def exState5 : DesignState :=
  { cells := [("c1".data, { name := "c1".data }), ("c2".data, { name := "c2".data }),
              ("c3".data, { name := "c3".data })],
    region := [("R".data, some { name := "R".data })],
    hierarchy := [("H".data, { leaf_cells := [("l1".data, "c1".data), ("l2".data, "c2".data)],
                               hier_cells := [("h1".data, "H2".data)] }),
                  ("H2".data, { leaf_cells := [("l3".data, "c3".data)], hier_cells := [] })] }

/-- Witness for C5 at the concrete two-level hierarchy. -/
theorem constrainCellToRegion_fanout_witness :
    (alistLookup ((constrainCellToRegion (0 + 3) exState5 "H".data "R".data).1).cells
        "c1".data).map CellInfo.region = some (some "R".data)
      ∧ (alistLookup ((constrainCellToRegion (0 + 3) exState5 "H".data "R".data).1).cells
          "c2".data).map CellInfo.region = some (some "R".data)
      ∧ (alistLookup ((constrainCellToRegion (0 + 3) exState5 "H".data "R".data).1).cells
          "c3".data).map CellInfo.region = some (some "R".data)
      ∧ (constrainCellToRegion (0 + 3) exState5 "H".data "R".data).2 = []
      ∧ ∀ X, alistLookup exState5.hierarchy X = none → alistLookup exState5.cells X = none →
          constrainCellToRegion (0 + 1) exState5 X "R".data
            = (exState5, [noCellMatchedWarning X "R".data]) :=
  constrainCellToRegion_fanout 0 exState5 "H".data "H2".data "R".data
    "l1".data "c1".data "l2".data "c2".data "h1".data "l3".data "c3".data
    { name := "c1".data } { name := "c2".data } { name := "c3".data }
    { name := "R".data }
    (by decide) (by decide) (by decide) (by decide) (by decide) (by decide) (by decide)
    (by decide) (by decide) (by decide) (by decide) (by decide) (by decide) (by decide)

/-! ## C6: ripupNet -/

/-- Wires map of a net after unbinding every wire in `ws`. -/
def unboundAfter (ws : List Str) (ni : NetInfo) : NetInfo :=
  { ni with wires := ni.wires.filter (fun x => decide (¬ x.1 ∈ ws)) }

theorem unboundAfter_nil (ni : NetInfo) : unboundAfter [] ni = ni := by
  cases ni
  simp [unboundAfter]

theorem foldl_unbind_frame (ws : List Str) : ∀ st : DesignState,
    (List.foldl unbindWire st ws).cells = st.cells
      ∧ (List.foldl unbindWire st ws).net_aliases = st.net_aliases
      ∧ (List.foldl unbindWire st ws).region = st.region
      ∧ (List.foldl unbindWire st ws).hierarchy = st.hierarchy := by
  induction ws with
  | nil => intro st; exact ⟨rfl, rfl, rfl, rfl⟩
  | cons w rest ih =>
    intro st
    rw [List.foldl_cons]
    exact ih (unbindWire st w)

/-- One `unbindWire` step seen on a single net. -/
def unbindNetW (w : Str) (ni : NetInfo) : NetInfo :=
  { ni with wires := ni.wires.filter (fun x => decide (x.1 ≠ w)) }

theorem unbindWire_nets (st : DesignState) (w : Str) :
    (unbindWire st w).nets = st.nets.map (fun e => (e.1, unbindNetW w e.2)) := rfl

theorem unboundAfter_step (w : Str) (rest : List Str) (ni : NetInfo) :
    unboundAfter rest (unbindNetW w ni) = unboundAfter (w :: rest) ni := by
  cases ni
  simp only [unboundAfter, unbindNetW, List.filter_filter]
  congr 1
  apply List.filter_congr
  intro x _
  by_cases h1 : x.1 = w <;> by_cases h2 : x.1 ∈ rest <;> simp [h1, h2]

theorem foldl_unbind_nets_lookup (ws : List Str) : ∀ (st : DesignState) (m : Str),
    alistLookup (List.foldl unbindWire st ws).nets m
      = (alistLookup st.nets m).map (unboundAfter ws) := by
  induction ws with
  | nil =>
    intro st m
    rw [List.foldl_nil]
    cases hlk : alistLookup st.nets m
    · rfl
    · simp [unboundAfter_nil]
  | cons w rest ih =>
    intro st m
    rw [List.foldl_cons, ih, unbindWire_nets, alistLookup_mapVal]
    cases hlk : alistLookup st.nets m
    · rfl
    · simp [unboundAfter_step]

theorem unboundAfter_self (ni : NetInfo) :
    (unboundAfter (ni.wires.map (fun e => e.1)) ni).wires = [] := by
  rw [unboundAfter]
  rw [List.filter_eq_nil_iff]
  intro x hx
  have hmem : x.1 ∈ ni.wires.map (fun e => e.1) := List.mem_map_of_mem _ hx
  simp [hmem]

/-- C6: for a net name that resolves through the alias table,
`ripupNet` snapshots the wires map keys and unbinds each, leaving the
net's bound-wire map empty, while logical connectivity — the net's
driver and sink ports, every other net's driver and sinks, and every
cell (hence its ports) — is untouched. -/
theorem ripupNet_unbinds_all (st : DesignState) (name canonical : Str) (ni : NetInfo)
    (ha : alistLookup st.net_aliases name = some canonical)
    (hn : alistLookup st.nets canonical = some ni) :
    (alistLookup (ripupNet st name).nets canonical).map NetInfo.wires = some []
      ∧ (alistLookup (ripupNet st name).nets canonical).map NetInfo.driver = some ni.driver
      ∧ (alistLookup (ripupNet st name).nets canonical).map NetInfo.users = some ni.users
      ∧ (alistLookup (ripupNet st name).nets canonical).map NetInfo.clkconstr
          = some ni.clkconstr
      ∧ (alistLookup (ripupNet st name).nets canonical).map NetInfo.attrs = some ni.attrs
      ∧ (ripupNet st name).cells = st.cells
      ∧ (ripupNet st name).net_aliases = st.net_aliases
      ∧ (ripupNet st name).region = st.region
      ∧ (ripupNet st name).hierarchy = st.hierarchy
      ∧ ∀ (m2 : Str) (nm : NetInfo), alistLookup st.nets m2 = some nm →
          (alistLookup (ripupNet st name).nets m2).map NetInfo.driver = some nm.driver
            ∧ (alistLookup (ripupNet st name).nets m2).map NetInfo.users = some nm.users := by
  have hres : getNetByAlias st name = some (canonical, ni) := by
    simp [getNetByAlias, ha, hn]
  have hrip : ripupNet st name
      = List.foldl unbindWire st (ni.wires.map (fun e => e.1)) := by
    unfold ripupNet
    rw [hres]
  obtain ⟨hfc, hfa, hfr, hfh⟩ := foldl_unbind_frame (ni.wires.map (fun e => e.1)) st
  refine ⟨?_, ?_, ?_, ?_, ?_, by rw [hrip]; exact hfc, by rw [hrip]; exact hfa,
    by rw [hrip]; exact hfr, by rw [hrip]; exact hfh, ?_⟩
  · rw [hrip, foldl_unbind_nets_lookup, hn]
    exact congrArg some (unboundAfter_self ni)
  · rw [hrip, foldl_unbind_nets_lookup, hn]
    rfl
  · rw [hrip, foldl_unbind_nets_lookup, hn]
    rfl
  · rw [hrip, foldl_unbind_nets_lookup, hn]
    rfl
  · rw [hrip, foldl_unbind_nets_lookup, hn]
    rfl
  · intro m2 nm hm
    rw [hrip, foldl_unbind_nets_lookup, hm]
    exact ⟨rfl, rfl⟩

/-- Concrete three-wire net used by the C6 witness. -/
def exNet6 : NetInfo :=
  { name := "n".data, driver := some ("c".data, "o".data), users := [("d".data, "i".data)],
    wires := [("w1".data, { strength := 1 }), ("w2".data, { strength := 2 }),
              ("w3".data, { strength := 3 })] }

/-- Concrete design used by the C6 witness. -/
def exState6 : DesignState :=
  { nets := [("n".data, exNet6)], net_aliases := [("n".data, "n".data)],
    cells := [("c".data, { name := "c".data, ports := [("o".data, { name := "o".data })] })] }

/-- Witness for C6 at a concrete net with three bound wires. -/
theorem ripupNet_unbinds_all_witness :
    (alistLookup (ripupNet exState6 "n".data).nets "n".data).map NetInfo.wires = some []
      ∧ (alistLookup (ripupNet exState6 "n".data).nets "n".data).map NetInfo.driver
          = some exNet6.driver
      ∧ (alistLookup (ripupNet exState6 "n".data).nets "n".data).map NetInfo.users
          = some exNet6.users
      ∧ (alistLookup (ripupNet exState6 "n".data).nets "n".data).map NetInfo.clkconstr
          = some exNet6.clkconstr
      ∧ (alistLookup (ripupNet exState6 "n".data).nets "n".data).map NetInfo.attrs
          = some exNet6.attrs
      ∧ (ripupNet exState6 "n".data).cells = exState6.cells
      ∧ (ripupNet exState6 "n".data).net_aliases = exState6.net_aliases
      ∧ (ripupNet exState6 "n".data).region = exState6.region
      ∧ (ripupNet exState6 "n".data).hierarchy = exState6.hierarchy
      ∧ ∀ (m2 : Str) (nm : NetInfo), alistLookup exState6.nets m2 = some nm →
          (alistLookup (ripupNet exState6 "n".data).nets m2).map NetInfo.driver
              = some nm.driver
            ∧ (alistLookup (ripupNet exState6 "n".data).nets m2).map NetInfo.users
                = some nm.users :=
  ripupNet_unbinds_all exState6 "n".data "n".data exNet6 (by decide) (by decide)

/-! ## C7: createNet and the alias invariant -/

/-- Every net's canonical name maps to itself in the alias table. -/
def AliasOk (st : DesignState) : Prop :=
  ∀ (n : Str) (ni : NetInfo), alistLookup st.nets n = some ni →
    alistLookup st.net_aliases n = some n

/-- No alias entry of `st` is removed or changed in `st2`. -/
def aliasesPreserved (st st2 : DesignState) : Prop :=
  ∀ (k v : Str), alistLookup st.net_aliases k = some v →
    alistLookup st2.net_aliases k = some v

theorem constrain_frame (fuel : Nat) : ∀ (st : DesignState) (cell rn : Str),
    ((constrainCellToRegion fuel st cell rn).1).net_aliases = st.net_aliases
      ∧ ((constrainCellToRegion fuel st cell rn).1).nets = st.nets
      ∧ ((constrainCellToRegion fuel st cell rn).1).hierarchy = st.hierarchy := by
  induction fuel with
  | zero =>
    intro st cell rn
    rw [constrainCellToRegion.eq_def]
    exact ⟨rfl, rfl, rfl⟩
  | succ f ih =>
    intro st cell rn
    have hfold : ∀ (l : List (Str × Str)) (acc : DesignState × List Str),
        (acc.1.net_aliases = st.net_aliases ∧ acc.1.nets = st.nets
          ∧ acc.1.hierarchy = st.hierarchy) →
        ((List.foldl (fun (acc : DesignState × List Str) (lc : Str × Str) =>
              let r := constrainCellToRegion f acc.1 lc.2 rn
              (r.1, acc.2 ++ r.2)) acc l).1.net_aliases = st.net_aliases
          ∧ (List.foldl (fun (acc : DesignState × List Str) (lc : Str × Str) =>
              let r := constrainCellToRegion f acc.1 lc.2 rn
              (r.1, acc.2 ++ r.2)) acc l).1.nets = st.nets
          ∧ (List.foldl (fun (acc : DesignState × List Str) (lc : Str × Str) =>
              let r := constrainCellToRegion f acc.1 lc.2 rn
              (r.1, acc.2 ++ r.2)) acc l).1.hierarchy = st.hierarchy) := by
      intro l
      induction l with
      | nil => intro acc h; exact h
      | cons x xs ihl =>
        intro acc h
        rw [List.foldl_cons]
        apply ihl
        obtain ⟨ha, hb, hcc⟩ := h
        obtain ⟨ia, ib, ic⟩ := ih acc.1 x.2 rn
        exact ⟨ia.trans ha, ib.trans hb, ic.trans hcc⟩
    have key : ∃ res : DesignState × List Str,
        constrainCellToRegion (f + 1) st cell rn = res
          ∧ res.1.net_aliases = st.net_aliases ∧ res.1.nets = st.nets
          ∧ res.1.hierarchy = st.hierarchy := by
      rw [constrainCellToRegion.eq_def]
      cases hh : alistLookup st.hierarchy cell with
      | none =>
        simp only [hh]
        refine ⟨_, rfl, ?_, ?_, ?_⟩ <;> (cases hc : alistLookup st.cells cell <;> simp [hc])
      | some hcell =>
        simp only [hh]
        have hleaf := hfold hcell.leaf_cells (st, ([] : List Str)) ⟨rfl, rfl, rfl⟩
        have hall := hfold hcell.hier_cells _ hleaf
        refine ⟨_, rfl, ?_, ?_, ?_⟩ <;>
          (split <;> first
            | exact hall.1
            | exact hall.2.1
            | exact hall.2.2)
    obtain ⟨res, heq, h1, h2, h3⟩ := key
    rw [heq]
    exact ⟨h1, h2, h3⟩

/-- C7: `createNet` fails exactly when the name is already a net or an
alias; on success it inserts an empty net and registers the name as its
own canonical alias without disturbing existing aliases; the invariant
`NetAlias[canonical] = canonical` holds after any sequence of
`createNet` calls from a state satisfying it; and no operation of this
core removes an alias entry. -/
theorem createNet_contract :
    (∀ (st : DesignState) (name : Str), createNet st name = none
        ↔ ((alistLookup st.nets name).isSome ∨ (alistLookup st.net_aliases name).isSome))
      ∧ (∀ (st : DesignState) (name : Str) (st2 : DesignState), createNet st name = some st2 →
          alistLookup st2.nets name = some (emptyNetInfo name)
            ∧ (emptyNetInfo name).wires = []
            ∧ alistLookup st2.net_aliases name = some name
            ∧ aliasesPreserved st st2)
      ∧ (∀ (names : List Str) (st st2 : DesignState), AliasOk st →
          createNets st names = some st2 → AliasOk st2)
      ∧ (∀ (d : Rat → Rat) (st : DesignState) (net : Str) (freq : Rat),
          (addClock d st net freq).1.net_aliases = st.net_aliases)
      ∧ (∀ (fuel : Nat) (st : DesignState) (c rn : Str),
          ((constrainCellToRegion fuel st c rn).1).net_aliases = st.net_aliases)
      ∧ (∀ (st : DesignState) (name bel : Str),
          (addBelToRegion st name bel).state.net_aliases = st.net_aliases)
      ∧ (∀ (st : DesignState) (name : Str), (ripupNet st name).net_aliases = st.net_aliases)
      ∧ (∀ (st : DesignState) (name ty : Str) (st2 : DesignState),
          createCell st name ty = some st2 → st2.net_aliases = st.net_aliases)
      ∧ (∀ st : DesignState, (archInfoToAttributes st).net_aliases = st.net_aliases)
      ∧ (∀ (p : Str → Str) (st : DesignState),
          (attributesToArchInfo p st).1.net_aliases = st.net_aliases) := by
  have hsucc : ∀ (st : DesignState) (name : Str) (st2 : DesignState),
      createNet st name = some st2 →
        (alistLookup st.nets name).isSome = false
          ∧ (alistLookup st.net_aliases name).isSome = false
          ∧ st2 = { st with net_aliases := alistInsert st.net_aliases name name,
                            nets := alistInsert st.nets name (emptyNetInfo name) } := by
    intro st name st2 h
    by_cases h1 : (alistLookup st.nets name).isSome
    · rw [createNet, if_pos h1] at h
      exact Option.noConfusion h
    · by_cases h2 : (alistLookup st.net_aliases name).isSome
      · rw [createNet, if_neg h1, if_pos h2] at h
        exact Option.noConfusion h
      · rw [createNet, if_neg h1, if_neg h2] at h
        exact ⟨Bool.eq_false_iff.mpr h1, Bool.eq_false_iff.mpr h2, (Option.some_inj.mp h).symm⟩
  refine ⟨?_, ?_, ?_, ?_, ?_, ?_, ?_, ?_, ?_, ?_⟩
  · intro st name
    constructor
    · intro h
      by_contra hcon
      rw [not_or] at hcon
      rw [createNet, if_neg hcon.1, if_neg hcon.2] at h
      exact Option.noConfusion h
    · intro h
      rcases h with h | h
      · rw [createNet, if_pos h]
      · by_cases h1 : (alistLookup st.nets name).isSome
        · rw [createNet, if_pos h1]
        · rw [createNet, if_neg h1, if_pos h]
  · intro st name st2 h
    obtain ⟨h1, h2, rfl⟩ := hsucc st name st2 h
    refine ⟨?_, rfl, ?_, ?_⟩
    · exact alistLookup_insert_self st.nets name (emptyNetInfo name)
    · exact alistLookup_insert_self st.net_aliases name name
    · intro k v hk
      have hkne : k ≠ name := by
        intro he
        rw [he] at hk
        rw [hk] at h2
        simp at h2
      show alistLookup (alistInsert st.net_aliases name name) k = some v
      rw [alistLookup_insert_ne _ _ _ _ hkne]
      exact hk
  · intro names
    induction names with
    | nil =>
      intro st st2 hok h
      rw [createNets] at h
      rw [← Option.some_inj.mp h]
      exact hok
    | cons n rest ihn =>
      intro st st2 hok h
      rw [createNets] at h
      cases hc : createNet st n with
      | none => rw [hc] at h; exact Option.noConfusion h
      | some stmid =>
        rw [hc] at h
        obtain ⟨h1, h2, rfl⟩ := hsucc st n stmid hc
        refine ihn _ st2 ?_ h
        intro n2 ni2 hn2
        by_cases hne : n2 = n
        · subst hne
          exact alistLookup_insert_self st.net_aliases n2 n2
        · show alistLookup (alistInsert st.net_aliases n n) n2 = some n2
          rw [alistLookup_insert_ne _ _ _ _ hne]
          rw [show alistLookup (alistInsert st.nets n (emptyNetInfo n)) n2
              = alistLookup st.nets n2 from alistLookup_insert_ne _ _ _ _ hne] at hn2
          exact hok n2 ni2 hn2
  · intro d st net freq
    by_cases h : (alistLookup st.net_aliases net).isSome
    · cases hg : getNetByAlias st net with
      | none => simp [addClock, h, hg]
      | some p =>
        cases p with
        | mk canonical ni => simp [addClock, h, hg]
    · simp [addClock, h]
  · intro fuel st c rn
    exact (constrain_frame fuel st c rn).1
  · intro st name bel
    cases hlk : alistLookup st.region name with
    | none => simp [addBelToRegion, hlk, OpResult.state]
    | some o =>
      cases o with
      | none => simp [addBelToRegion, hlk, OpResult.state]
      | some r => simp [addBelToRegion, hlk, OpResult.state]
  · intro st name
    cases hg : getNetByAlias st name with
    | none => rw [ripupNet, hg]
    | some p =>
      cases p with
      | mk canonical ni =>
        rw [ripupNet, hg]
        exact (foldl_unbind_frame (ni.wires.map (fun e => e.1)) st).2.1
  · intro st name ty st2 h
    by_cases h1 : (alistLookup st.cells name).isSome
    · rw [createCell, if_pos h1] at h
      exact Option.noConfusion h
    · rw [createCell, if_neg h1] at h
      rw [← Option.some_inj.mp h]
  · intro st
    rfl
  · intro p st
    rfl

/-- Concrete state produced by a successful `createNet` on the empty
design, used by the C7 witness. -/
def exState7 : DesignState :=
  { nets := [("n".data, emptyNetInfo "n".data)],
    net_aliases := [("n".data, "n".data)] }

/-- Witness for C7: `createNet` on the empty design inserts the empty
net, registers the self-alias and preserves aliases. -/
theorem createNet_contract_witness :
    alistLookup exState7.nets "n".data = some (emptyNetInfo "n".data)
      ∧ (emptyNetInfo "n".data).wires = []
      ∧ alistLookup exState7.net_aliases "n".data = some "n".data
      ∧ aliasesPreserved {} exState7 :=
  createNet_contract.2.1 {} "n".data exState7 (by decide)

/-! ## C8: addClock -/

/-- C8: `addClock` on a name absent from the alias table emits one
warning and leaves the whole design unchanged; on a name in the alias
table it attaches to the resolved net a clock constraint whose period is
the delay conversion of `1000/freq` and whose high and low are each the
delay conversion of `500/freq`, replacing any prior constraint and
leaving every other net and all other design state unchanged. -/
theorem addClock_contract (d : Rat → Rat) (st : DesignState) (net : Str) (freq : Rat) :
    (alistLookup st.net_aliases net = none →
        addClock d st net freq = (st, [clockWarning net]))
      ∧ ∀ (canonical : Str) (ni : NetInfo),
          alistLookup st.net_aliases net = some canonical →
          alistLookup st.nets canonical = some ni →
          (addClock d st net freq).2 = []
            ∧ (alistLookup (addClock d st net freq).1.nets canonical).map NetInfo.clkconstr
                = some (some { period := delayPair (d (1000 / freq)),
                               high := delayPair (d (500 / freq)),
                               low := delayPair (d (500 / freq)) })
            ∧ (∀ m : Str, m ≠ canonical →
                alistLookup (addClock d st net freq).1.nets m = alistLookup st.nets m)
            ∧ (addClock d st net freq).1.cells = st.cells
            ∧ (addClock d st net freq).1.net_aliases = st.net_aliases
            ∧ (addClock d st net freq).1.region = st.region
            ∧ (addClock d st net freq).1.hierarchy = st.hierarchy := by
  constructor
  · intro h
    simp [addClock, h]
  · intro canonical ni ha hn
    have hg : getNetByAlias st net = some (canonical, ni) := by
      simp [getNetByAlias, ha, hn]
    have hred : addClock d st net freq
        = ({ st with nets := alistInsert st.nets canonical { ni with clkconstr := some { period := delayPair (d (1000 / freq)), high := delayPair (d (500 / freq)), low := delayPair (d (500 / freq)) } } }, []) := by
      simp [addClock, ha, hg]
    rw [hred]
    refine ⟨rfl, ?_, ?_, rfl, rfl, rfl, rfl⟩
    · show (alistLookup (alistInsert st.nets canonical _) canonical).map NetInfo.clkconstr = _
      rw [alistLookup_insert_self]
      rfl
    · intro m hm
      show alistLookup (alistInsert st.nets canonical _) m = alistLookup st.nets m
      rw [alistLookup_insert_ne _ _ _ _ hm]

/-- Concrete one-net design used by the C8 witness. -/
def exState8 : DesignState :=
  { nets := [("n".data, { name := "n".data })],
    net_aliases := [("n".data, "n".data)] }

/-- Witness for C8: a missing net warns and changes nothing; an existing
net at 100 MHz gets period 10 and high and low 5 (identity delay
conversion). -/
theorem addClock_contract_witness :
    (addClock (fun x => x) exState8 "x".data 100 = (exState8, [clockWarning "x".data]))
      ∧ (addClock (fun x => x) exState8 "n".data 100).2 = []
      ∧ (alistLookup (addClock (fun x => x) exState8 "n".data 100).1.nets "n".data).map
          NetInfo.clkconstr
        = some (some { period := delayPair ((fun (x : Rat) => x) (1000 / 100)),
                       high := delayPair ((fun (x : Rat) => x) (500 / 100)),
                       low := delayPair ((fun (x : Rat) => x) (500 / 100)) }) :=
  have hmain := (addClock_contract (fun x => x) exState8 "n".data 100).2 "n".data
    { name := "n".data } (by decide) (by decide)
  ⟨(addClock_contract (fun x => x) exState8 "x".data 100).1 (by decide),
    hmain.1, hmain.2.1⟩

/-! ## C9: addBelToRegion -/

/-- Counterexample to C9 as stated: on a design with an empty region
table, `addBelToRegion` fails (null dereference), but the failing call
has already default-inserted a null placeholder entry under the name, so
the region table is not left unchanged in this failure case. -/
theorem addBelToRegion_counterexample :
    addBelToRegion {} "R".data "b".data
        = OpResult.crashed { region := [("R".data, (none : Option RegionInfo))] }
      ∧ ({ region := [("R".data, (none : Option RegionInfo))] } : DesignState).region
          ≠ ({} : DesignState).region :=
  ⟨by decide, by decide⟩

/-- C9 (amended): `addBelToRegion` adds the site to the membership set
of the Region registered under the name when a live Region exists there;
it fails (null dereference) otherwise — with the region table unchanged
when the name is present as a null entry, but with a null placeholder
entry first default-inserted (`operator[]` semantics) when the name is
absent from the table. -/
theorem addBelToRegion_contract (st : DesignState) (name bel : Str) :
    (∀ r : RegionInfo, alistLookup st.region name = some (some r) →
        addBelToRegion st name bel
            = OpResult.ok { st with region := alistInsert st.region name (some { r with bels := if r.bels.contains bel then r.bels else r.bels ++ [bel] }) }
          ∧ bel ∈ (if r.bels.contains bel then r.bels else r.bels ++ [bel])
          ∧ ∀ b0 ∈ r.bels, b0 ∈ (if r.bels.contains bel then r.bels else r.bels ++ [bel]))
      ∧ (alistLookup st.region name = some none →
          addBelToRegion st name bel = OpResult.crashed st)
      ∧ (alistLookup st.region name = none →
          addBelToRegion st name bel
              = OpResult.crashed { st with region := alistInsert st.region name none }
            ∧ alistLookup (alistInsert st.region name (none : Option RegionInfo)) name
                = some none) := by
  refine ⟨?_, ?_, ?_⟩
  · intro r hr
    refine ⟨?_, ?_, ?_⟩
    · rw [addBelToRegion.eq_def, hr]
    · by_cases hco : r.bels.contains bel
      · rw [if_pos hco]
        simpa using hco
      · rw [if_neg hco]
        simp
    · intro b0 hb0
      by_cases hco : r.bels.contains bel
      · rw [if_pos hco]
        exact hb0
      · rw [if_neg hco]
        exact List.mem_append_left _ hb0
  · intro hr
    rw [addBelToRegion.eq_def, hr]
  · intro hr
    exact ⟨by rw [addBelToRegion.eq_def, hr], alistLookup_insert_self st.region name none⟩

/-- Concrete design with one live Region used by the C9 witness. -/
def exState9 : DesignState :=
  { region := [("R".data, some { name := "R".data, bels := ["b0".data] })] }

/-- Witness for the amended C9 at a concrete live Region. -/
theorem addBelToRegion_contract_witness :
    addBelToRegion exState9 "R".data "b".data
        = OpResult.ok { exState9 with region := alistInsert exState9.region "R".data (some { name := "R".data, bels := (if (["b0".data] : List Str).contains "b".data then ["b0".data] else ["b0".data] ++ ["b".data]) }) }
      ∧ "b".data ∈ (if (["b0".data] : List Str).contains "b".data then ["b0".data]
          else ["b0".data] ++ ["b".data])
      ∧ ∀ b0 ∈ (["b0".data] : List Str),
          b0 ∈ (if (["b0".data] : List Str).contains "b".data then ["b0".data]
            else ["b0".data] ++ ["b".data]) :=
  (addBelToRegion_contract exState9 "R".data "b".data).1
    { name := "R".data, bels := ["b0".data] } (by decide)
